import Mathlib

set_option maxRecDepth 8192

/-!
Verification development for the Pin-Cover-auto repository.

The definitions below are a shallow embedding of `src/server.js` and
`src/pinterest-poster.js`.  JavaScript strings are modelled as `List Char`,
byte buffers as `List Nat` (each element `< 256`), and the Node builtins the
code relies on (base64 and UTF-8 codecs of `Buffer`, `JSON.stringify`,
`JSON.parse`, `String.prototype.trim/split/toUpperCase`) are modelled as
executable Lean functions.
-/

namespace PinCover

/-! ## JavaScript string primitives -/

/-- Length of a string as JavaScript's `String.prototype.length` counts it:
astral-plane characters weigh two UTF-16 code units. -/
def utf16Len (l : List Char) : Nat :=
  (l.map (fun c => if c.toNat < 0x10000 then 1 else 2)).sum

/-- Characters stripped by JavaScript's `String.prototype.trim`. -/
def jsWhitespace (c : Char) : Bool :=
  decide (c.toNat ∈ ([0x09, 0x0A, 0x0B, 0x0C, 0x0D, 0x20, 0xA0, 0x1680, 0x2028,
      0x2029, 0x202F, 0x205F, 0x3000, 0xFEFF] : List Nat) ∨
    (0x2000 ≤ c.toNat ∧ c.toNat ≤ 0x200A))

/-- JavaScript's `String.prototype.trim`. -/
def jsTrim (l : List Char) : List Char :=
  ((l.dropWhile jsWhitespace).reverse.dropWhile jsWhitespace).reverse

/-- JavaScript's `String.prototype.split` with a single-character separator. -/
def splitOnChar (sep : Char) : List Char → List (List Char)
  | [] => [[]]
  | c :: r =>
    match splitOnChar sep r with
    | w :: ws => if c = sep then [] :: w :: ws else (c :: w) :: ws
    | [] => [[c]]

/-- JavaScript's `Array.prototype.join` with a separator string. -/
def jsJoin (sep : List Char) : List (List Char) → List Char
  | [] => []
  | [x] => x
  | x :: xs => x ++ sep ++ jsJoin sep xs

/-- ASCII-range model of `String.prototype.toUpperCase` (the titles the tool
uppercases are ASCII; the wrapping and escaping claims do not depend on the
uppercasing table). -/
def jsToUpper (l : List Char) : List Char := l.map Char.toUpper

/-- Substring test, JavaScript's `String.prototype.includes`. -/
def jsIncludes (needle hay : List Char) : Bool :=
  hay.tails.any (needle.isPrefixOf ·)

/-! ## Base64 (Node `Buffer.toString('base64')` / `Buffer.from(_, 'base64')`) -/

def b64Alphabet : List Char :=
  "ABCDEFGHIJKLMNOPQRSTUVWXYZabcdefghijklmnopqrstuvwxyz0123456789+/".toList

def b64Char (n : Nat) : Char := b64Alphabet.getD n 'A'

/-- Standard base64 encoding of a byte list, with `=` padding, as
`Buffer.prototype.toString('base64')` produces it. -/
def b64encode : List Nat → List Char
  | [] => []
  | [b0] => [b64Char (b0 / 4), b64Char (b0 % 4 * 16), '=', '=']
  | [b0, b1] => [b64Char (b0 / 4), b64Char (b0 % 4 * 16 + b1 / 16), b64Char (b1 % 16 * 4), '=']
  | b0 :: b1 :: b2 :: rest =>
    b64Char (b0 / 4) :: b64Char (b0 % 4 * 16 + b1 / 16) :: b64Char (b1 % 16 * 4 + b2 / 64) ::
      b64Char (b2 % 64) :: b64encode rest

def b64Val (c : Char) : Option Nat := b64Alphabet.findIdx? (· == c)

def b64decodeSextets : List Nat → List Nat
  | s0 :: s1 :: s2 :: s3 :: rest =>
    (s0 * 4 + s1 / 16) :: (s1 % 16 * 16 + s2 / 4) :: (s2 % 4 * 64 + s3) ::
      b64decodeSextets rest
  | [s0, s1] => [s0 * 4 + s1 / 16]
  | [s0, s1, s2] => [s0 * 4 + s1 / 16, s1 % 16 * 16 + s2 / 4]
  | _ => []

/-- Node's forgiving base64 decoder: non-alphabet characters are skipped,
decoding stops at the first `=` padding character, and a trailing partial
group of 2 or 3 sextets still yields 1 or 2 bytes. -/
def b64decode (l : List Char) : List Nat :=
  b64decodeSextets ((l.takeWhile (· != '=')).filterMap b64Val)

theorem b64Val_b64Char : ∀ n < 64, b64Val (b64Char n) = some n := by decide

theorem b64Char_ne_pad : ∀ n < 64, (b64Char n != '=') = true := by decide

theorem b64_takeWhile_cons (n : Nat) (h : n < 64) (l : List Char) :
    (b64Char n :: l).takeWhile (· != '=') = b64Char n :: l.takeWhile (· != '=') := by
  simp [List.takeWhile_cons, b64Char_ne_pad n h]

theorem b64_takeWhile_pad (l : List Char) : ('=' :: l).takeWhile (· != '=') = [] := rfl

theorem b64_filterMap_cons (n : Nat) (h : n < 64) (l : List Char) :
    (b64Char n :: l).filterMap b64Val = n :: l.filterMap b64Val := by
  simp [List.filterMap_cons, b64Val_b64Char n h]

theorem b64_roundtrip : ∀ bs : List Nat, (∀ b ∈ bs, b < 256) →
    b64decode (b64encode bs) = bs := by
  intro bs
  induction bs using b64encode.induct with
  | case1 =>
    intro _; rfl
  | case2 b0 =>
    intro h
    have hb0 : b0 < 256 := h b0 (by simp)
    show b64decode (b64Char (b0 / 4) :: b64Char (b0 % 4 * 16) :: '=' :: '=' :: []) = _
    unfold b64decode
    rw [b64_takeWhile_cons _ (by omega), b64_takeWhile_cons _ (by omega), b64_takeWhile_pad,
      b64_filterMap_cons _ (by omega), b64_filterMap_cons _ (by omega), List.filterMap_nil]
    simp only [b64decodeSextets, List.cons.injEq, and_true]
    omega
  | case3 b0 b1 =>
    intro h
    have hb0 : b0 < 256 := h b0 (by simp)
    have hb1 : b1 < 256 := h b1 (by simp)
    show b64decode (b64Char (b0 / 4) :: b64Char (b0 % 4 * 16 + b1 / 16) ::
      b64Char (b1 % 16 * 4) :: '=' :: []) = _
    unfold b64decode
    rw [b64_takeWhile_cons _ (by omega), b64_takeWhile_cons _ (by omega),
      b64_takeWhile_cons _ (by omega), b64_takeWhile_pad,
      b64_filterMap_cons _ (by omega), b64_filterMap_cons _ (by omega),
      b64_filterMap_cons _ (by omega), List.filterMap_nil]
    simp only [b64decodeSextets, List.cons.injEq, and_true]
    constructor <;> omega
  | case4 b0 b1 b2 rest ih =>
    intro h
    have hb0 : b0 < 256 := h b0 (by simp)
    have hb1 : b1 < 256 := h b1 (by simp)
    have hb2 : b2 < 256 := h b2 (by simp)
    have hrest : ∀ b ∈ rest, b < 256 := fun b hb => h b (by simp [hb])
    show b64decode (b64Char (b0 / 4) :: b64Char (b0 % 4 * 16 + b1 / 16) ::
      b64Char (b1 % 16 * 4 + b2 / 64) :: b64Char (b2 % 64) :: b64encode rest) = _
    unfold b64decode
    rw [b64_takeWhile_cons _ (by omega), b64_takeWhile_cons _ (by omega),
      b64_takeWhile_cons _ (by omega), b64_takeWhile_cons _ (by omega),
      b64_filterMap_cons _ (by omega), b64_filterMap_cons _ (by omega),
      b64_filterMap_cons _ (by omega), b64_filterMap_cons _ (by omega)]
    simp only [b64decodeSextets, List.cons.injEq]
    refine ⟨by omega, by omega, by omega, ih hrest⟩

/-! ## UTF-8 (Node `Buffer.from(string)` / `Buffer.prototype.toString()`) -/

/-- Character from a code point; invalid code points (as arise from lone
surrogate escapes) are replaced by U+FFFD, as JavaScript renders them. -/
def charOfCode (n : Nat) : Char :=
  if Nat.isValidChar n then Char.ofNat n else Char.ofNat 0xFFFD

def utf8EncodeChar (c : Char) : List Nat :=
  if c.toNat < 0x80 then [c.toNat]
  else if c.toNat < 0x800 then [0xC0 + c.toNat / 64, 0x80 + c.toNat % 64]
  else if c.toNat < 0x10000 then
    [0xE0 + c.toNat / 4096, 0x80 + c.toNat / 64 % 64, 0x80 + c.toNat % 64]
  else
    [0xF0 + c.toNat / 262144, 0x80 + c.toNat / 4096 % 64, 0x80 + c.toNat / 64 % 64,
      0x80 + c.toNat % 64]

def utf8Encode : List Char → List Nat
  | [] => []
  | c :: cs => utf8EncodeChar c ++ utf8Encode cs

/-- Decode one UTF-8 sequence given its lead byte and the remaining bytes;
returns the code point and the rest.  Overlong encodings, surrogate code
points and out-of-range values are rejected. -/
def utf8DecodeLead (b : Nat) (r : List Nat) : Option (Nat × List Nat) :=
  if b < 0x80 then some (b, r)
  else if b < 0xC0 then none
  else if b < 0xE0 then
    match r with
    | b1 :: r1 =>
      if 0x80 ≤ b1 ∧ b1 < 0xC0 ∧ 0x80 ≤ (b - 0xC0) * 64 + (b1 - 0x80) then
        some ((b - 0xC0) * 64 + (b1 - 0x80), r1)
      else none
    | [] => none
  else if b < 0xF0 then
    match r with
    | b1 :: b2 :: r2 =>
      if (0x80 ≤ b1 ∧ b1 < 0xC0) ∧ (0x80 ≤ b2 ∧ b2 < 0xC0) ∧
          0x800 ≤ (b - 0xE0) * 4096 + (b1 - 0x80) * 64 + (b2 - 0x80) ∧
          ¬ (0xD800 ≤ (b - 0xE0) * 4096 + (b1 - 0x80) * 64 + (b2 - 0x80) ∧
            (b - 0xE0) * 4096 + (b1 - 0x80) * 64 + (b2 - 0x80) < 0xE000) then
        some ((b - 0xE0) * 4096 + (b1 - 0x80) * 64 + (b2 - 0x80), r2)
      else none
    | _ => none
  else if b < 0xF8 then
    match r with
    | b1 :: b2 :: b3 :: r3 =>
      if (0x80 ≤ b1 ∧ b1 < 0xC0) ∧ (0x80 ≤ b2 ∧ b2 < 0xC0) ∧ (0x80 ≤ b3 ∧ b3 < 0xC0) ∧
          0x10000 ≤ (b - 0xF0) * 262144 + (b1 - 0x80) * 4096 + (b2 - 0x80) * 64 + (b3 - 0x80) ∧
          (b - 0xF0) * 262144 + (b1 - 0x80) * 4096 + (b2 - 0x80) * 64 + (b3 - 0x80) < 0x110000 then
        some ((b - 0xF0) * 262144 + (b1 - 0x80) * 4096 + (b2 - 0x80) * 64 + (b3 - 0x80), r3)
      else none
    | _ => none
  else none

/-- Fuel-driven UTF-8 decoding loop; one unit of fuel is spent per decoded
character, so fuel equal to the byte count always suffices. -/
def utf8DecodeF : Nat → List Nat → Option (List Char)
  | _, [] => some []
  | 0, _ :: _ => none
  | f+1, b :: r =>
    match utf8DecodeLead b r with
    | some (v, rest) => (utf8DecodeF f rest).map (fun cs => charOfCode v :: cs)
    | none => none

def utf8Decode (l : List Nat) : Option (List Char) := utf8DecodeF l.length l

theorem char_code_valid (c : Char) :
    c.toNat < 0xD800 ∨ (0xDFFF < c.toNat ∧ c.toNat < 0x110000) := c.valid

theorem charOfCode_toNat (c : Char) : charOfCode c.toNat = c := by
  unfold charOfCode
  rw [if_pos (show Nat.isValidChar c.toNat from c.valid), Char.ofNat_toNat]

theorem utf8EncodeChar_lt (c : Char) : ∀ b ∈ utf8EncodeChar c, b < 256 := by
  intro b hb
  have hv := char_code_valid c
  unfold utf8EncodeChar at hb
  by_cases h1 : c.toNat < 0x80
  · rw [if_pos h1] at hb; simp at hb; omega
  · rw [if_neg h1] at hb
    by_cases h2 : c.toNat < 0x800
    · rw [if_pos h2] at hb; simp at hb; omega
    · rw [if_neg h2] at hb
      by_cases h3 : c.toNat < 0x10000
      · rw [if_pos h3] at hb; simp at hb; omega
      · rw [if_neg h3] at hb; simp at hb; omega

theorem utf8Encode_lt (cs : List Char) : ∀ b ∈ utf8Encode cs, b < 256 := by
  induction cs with
  | nil => simp [utf8Encode]
  | cons c cs ih =>
    intro b hb
    simp only [utf8Encode, List.mem_append] at hb
    rcases hb with hb | hb
    · exact utf8EncodeChar_lt c b hb
    · exact ih b hb

theorem utf8DecodeLead_encodeChar (c : Char) (r : List Nat) :
    ∀ b rest, utf8EncodeChar c ++ r = b :: rest →
      utf8DecodeLead b rest = some (c.toNat, r) := by
  intro b rest
  have hv := char_code_valid c
  by_cases h1 : c.toNat < 0x80
  · rw [show utf8EncodeChar c = [c.toNat] from by unfold utf8EncodeChar; rw [if_pos h1]]
    intro h
    simp only [List.cons_append, List.nil_append, List.cons.injEq] at h
    obtain ⟨rfl, rfl⟩ := h
    unfold utf8DecodeLead
    rw [if_pos h1]
  · by_cases h2 : c.toNat < 0x800
    · rw [show utf8EncodeChar c = [0xC0 + c.toNat / 64, 0x80 + c.toNat % 64] from by
        unfold utf8EncodeChar; rw [if_neg h1, if_pos h2]]
      intro h
      simp only [List.cons_append, List.nil_append, List.cons.injEq] at h
      obtain ⟨rfl, rfl⟩ := h
      unfold utf8DecodeLead
      rw [if_neg (by omega), if_neg (by omega), if_pos (by omega)]
      simp only
      rw [if_pos ⟨by omega, by omega, by omega⟩]
      congr 2
      omega
    · by_cases h3 : c.toNat < 0x10000
      · rw [show utf8EncodeChar c =
            [0xE0 + c.toNat / 4096, 0x80 + c.toNat / 64 % 64, 0x80 + c.toNat % 64] from by
          unfold utf8EncodeChar; rw [if_neg h1, if_neg h2, if_pos h3]]
        intro h
        simp only [List.cons_append, List.nil_append, List.cons.injEq] at h
        obtain ⟨rfl, rfl⟩ := h
        unfold utf8DecodeLead
        rw [if_neg (by omega), if_neg (by omega), if_neg (by omega), if_pos (by omega)]
        simp only
        rw [if_pos ⟨⟨by omega, by omega⟩, ⟨by omega, by omega⟩, by omega, by omega⟩]
        congr 2
        omega
      · rw [show utf8EncodeChar c = [0xF0 + c.toNat / 262144, 0x80 + c.toNat / 4096 % 64,
            0x80 + c.toNat / 64 % 64, 0x80 + c.toNat % 64] from by
          unfold utf8EncodeChar; rw [if_neg h1, if_neg h2, if_neg h3]]
        intro h
        simp only [List.cons_append, List.nil_append, List.cons.injEq] at h
        obtain ⟨rfl, rfl⟩ := h
        unfold utf8DecodeLead
        rw [if_neg (by omega), if_neg (by omega), if_neg (by omega), if_neg (by omega),
          if_pos (by omega)]
        simp only
        rw [if_pos ⟨⟨by omega, by omega⟩, ⟨by omega, by omega⟩, ⟨by omega, by omega⟩,
          by omega, by omega⟩]
        congr 2
        omega

theorem utf8EncodeChar_ne_nil (c : Char) : utf8EncodeChar c ≠ [] := by
  unfold utf8EncodeChar
  by_cases h1 : c.toNat < 0x80
  · rw [if_pos h1]; simp
  · rw [if_neg h1]
    by_cases h2 : c.toNat < 0x800
    · rw [if_pos h2]; simp
    · rw [if_neg h2]
      by_cases h3 : c.toNat < 0x10000
      · rw [if_pos h3]; simp
      · rw [if_neg h3]; simp

theorem utf8DecodeF_encodeChar (f : Nat) (c : Char) (r : List Nat) :
    utf8DecodeF (f+1) (utf8EncodeChar c ++ r) = (utf8DecodeF f r).map (fun cs => c :: cs) := by
  obtain ⟨b, rest, hbr⟩ : ∃ b rest, utf8EncodeChar c ++ r = b :: rest := by
    cases hc : utf8EncodeChar c with
    | nil => exact absurd hc (utf8EncodeChar_ne_nil c)
    | cons x xs => exact ⟨x, xs ++ r, by simp [hc]⟩
  rw [hbr]
  show (match utf8DecodeLead b rest with
    | some (v, rest') => (utf8DecodeF f rest').map (fun cs => charOfCode v :: cs)
    | none => none) = _
  rw [utf8DecodeLead_encodeChar c r b rest hbr]
  simp only
  rw [charOfCode_toNat]

theorem utf8DecodeF_encode (cs : List Char) :
    ∀ f, utf8DecodeF (f + cs.length) (utf8Encode cs) = some cs := by
  induction cs with
  | nil => intro f; show utf8DecodeF (f + 0) [] = some []; cases f <;> rfl
  | cons c cs ih =>
    intro f
    show utf8DecodeF (f + (cs.length + 1)) (utf8EncodeChar c ++ utf8Encode cs) = _
    have : utf8DecodeF ((f + cs.length) + 1) (utf8EncodeChar c ++ utf8Encode cs) =
        (utf8DecodeF (f + cs.length) (utf8Encode cs)).map (fun l => c :: l) :=
      utf8DecodeF_encodeChar (f + cs.length) c (utf8Encode cs)
    rw [show f + (cs.length + 1) = (f + cs.length) + 1 from by omega, this, ih f]
    rfl

theorem length_le_utf8Encode (cs : List Char) : cs.length ≤ (utf8Encode cs).length := by
  induction cs with
  | nil => simp [utf8Encode]
  | cons c cs ih =>
    show cs.length + 1 ≤ (utf8EncodeChar c ++ utf8Encode cs).length
    rw [List.length_append]
    have : 1 ≤ (utf8EncodeChar c).length := by
      cases hc : utf8EncodeChar c with
      | nil => exact absurd hc (utf8EncodeChar_ne_nil c)
      | cons x xs => simp
    omega

theorem utf8_roundtrip (cs : List Char) : utf8Decode (utf8Encode cs) = some cs := by
  unfold utf8Decode
  have hle := length_le_utf8Encode cs
  rw [show (utf8Encode cs).length = ((utf8Encode cs).length - cs.length) + cs.length from by
    omega]
  exact utf8DecodeF_encode cs _

/-! ## JSON values (results of Node `JSON.parse`) -/

/-- JSON values.  Numbers keep their raw token text: the server never does
arithmetic on parsed numbers, it only tests truthiness. -/
inductive JVal where
  | null
  | bool (b : Bool)
  | num (raw : List Char)
  | str (s : List Char)
  | arr (elems : List JVal)
  | obj (members : List (List Char × JVal))

def hexDigitChar (n : Nat) : Char :=
  if n < 10 then Char.ofNat (48 + n) else Char.ofNat (87 + n)

/-- Per-character escaping performed by `JSON.stringify` on string values:
quote, backslash and the named control escapes, `\u00XX` for the remaining
control characters, everything else verbatim. -/
def jsonEscapeChar (c : Char) : List Char :=
  if c = '"' then ['\\', '"']
  else if c = '\\' then ['\\', '\\']
  else if c = '\x08' then ['\\', 'b']
  else if c = '\x09' then ['\\', 't']
  else if c = '\x0A' then ['\\', 'n']
  else if c = '\x0C' then ['\\', 'f']
  else if c = '\x0D' then ['\\', 'r']
  else if c.toNat < 0x20 then
    ['\\', 'u', '0', '0', hexDigitChar (c.toNat / 16), hexDigitChar (c.toNat % 16)]
  else [c]

def jsonEscapeStr : List Char → List Char
  | [] => []
  | c :: s => jsonEscapeChar c ++ jsonEscapeStr s

def hexVal (c : Char) : Option Nat :=
  if 48 ≤ c.toNat ∧ c.toNat ≤ 57 then some (c.toNat - 48)
  else if 97 ≤ c.toNat ∧ c.toNat ≤ 102 then some (c.toNat - 87)
  else if 65 ≤ c.toNat ∧ c.toNat ≤ 70 then some (c.toNat - 55)
  else none

def hex4 (h1 h2 h3 h4 : Char) : Option Nat :=
  (hexVal h1).bind (fun a => (hexVal h2).bind (fun b =>
    (hexVal h3).bind (fun c => (hexVal h4).map (fun d => ((a * 16 + b) * 16 + c) * 16 + d))))

def jsonUnescape (e : Char) : Option Char :=
  if e = '"' then some '"'
  else if e = '\\' then some '\\'
  else if e = '/' then some '/'
  else if e = 'b' then some '\x08'
  else if e = 'f' then some '\x0C'
  else if e = 'n' then some '\x0A'
  else if e = 'r' then some '\x0D'
  else if e = 't' then some '\x09'
  else none

/-- Parse the body of a JSON string literal (after the opening quote) up to
and including its closing quote.  Surrogate `\uXXXX` escapes are rendered as
U+FFFD by `charOfCode`; the serializer side never emits them. -/
def parseStrBody : List Char → Option (List Char × List Char)
  | [] => none
  | '"' :: r => some ([], r)
  | '\\' :: 'u' :: h1 :: h2 :: h3 :: h4 :: r3 =>
    (hex4 h1 h2 h3 h4).bind
      (fun n => (parseStrBody r3).map (fun p => (charOfCode n :: p.1, p.2)))
  | '\\' :: e :: r2 =>
    (jsonUnescape e).bind (fun ce => (parseStrBody r2).map (fun p => (ce :: p.1, p.2)))
  | ['\\'] => none
  | c :: r => if c.toNat < 0x20 then none else (parseStrBody r).map (fun p => (c :: p.1, p.2))

def jsonDigit (c : Char) : Bool := decide (48 ≤ c.toNat ∧ c.toNat ≤ 57)

def parseNumFrac (l : List Char) : Option (List Char × List Char) :=
  match l with
  | '.' :: r =>
    if (r.takeWhile jsonDigit).isEmpty then none
    else some ('.' :: r.takeWhile jsonDigit, r.dropWhile jsonDigit)
  | _ => some ([], l)

def parseNumExpAux (e : Char) (r : List Char) : Option (List Char × List Char) :=
  let sg : List Char × List Char :=
    match r with
    | '+' :: t => (['+'], t)
    | '-' :: t => (['-'], t)
    | _ => ([], r)
  if (sg.2.takeWhile jsonDigit).isEmpty then none
  else some (e :: (sg.1 ++ sg.2.takeWhile jsonDigit), sg.2.dropWhile jsonDigit)

def parseNumExp (l : List Char) : Option (List Char × List Char) :=
  match l with
  | 'e' :: r => parseNumExpAux 'e' r
  | 'E' :: r => parseNumExpAux 'E' r
  | _ => some ([], l)

/-- Parse a JSON number token, returning its raw text and the rest. -/
def parseNumberTok (l : List Char) : Option (List Char × List Char) :=
  let sign : List Char × List Char :=
    match l with
    | '-' :: r => (['-'], r)
    | _ => ([], l)
  if (sign.2.takeWhile jsonDigit).isEmpty then none
  else
    match parseNumFrac (sign.2.dropWhile jsonDigit) with
    | none => none
    | some (fr, l2) =>
      match parseNumExp l2 with
      | none => none
      | some (ex, l3) => some (sign.1 ++ sign.2.takeWhile jsonDigit ++ fr ++ ex, l3)

def jsonWs (c : Char) : Bool := c == ' ' || c == '\x09' || c == '\x0A' || c == '\x0D'

def skipWs (l : List Char) : List Char := l.dropWhile jsonWs

/-- Parser phase: a complete value, the members of an object after a `\x7b`,
or the elements of an array after a `[`. -/
inductive PMode where
  | val
  | members
  | elems

def parseTrueTok : List Char → Option (JVal × List Char)
  | 'r' :: 'u' :: 'e' :: r2 => some (.bool true, r2)
  | _ => none

def parseFalseTok : List Char → Option (JVal × List Char)
  | 'a' :: 'l' :: 's' :: 'e' :: r2 => some (.bool false, r2)
  | _ => none

def parseNullTok : List Char → Option (JVal × List Char)
  | 'u' :: 'l' :: 'l' :: r2 => some (.null, r2)
  | _ => none

def expectColon (l : List Char) : Option (List Char) :=
  match skipWs l with
  | ':' :: r => some r
  | _ => none

def memberSep (l : List Char) : Option (Bool × List Char) :=
  match skipWs l with
  | ',' :: r => some (true, r)
  | '\x7d' :: r => some (false, r)
  | _ => none

def elemSep (l : List Char) : Option (Bool × List Char) :=
  match skipWs l with
  | ',' :: r => some (true, r)
  | ']' :: r => some (false, r)
  | _ => none

def objConsResult (k : List Char) (v : JVal) (vr : JVal × List Char) : Option (JVal × List Char) :=
  match vr.1 with
  | .obj ms => some (.obj ((k, v) :: ms), vr.2)
  | _ => none

def arrConsResult (v : JVal) (vr : JVal × List Char) : Option (JVal × List Char) :=
  match vr.1 with
  | .arr xs => some (.arr (v :: xs), vr.2)
  | _ => none

/-- Fuel-driven JSON parser; one unit of fuel is spent per nested value and
per object member / array element, so fuel `length + 1` always suffices. -/
def parseP : Nat → PMode → List Char → Option (JVal × List Char)
  | 0, _, _ => none
  | f+1, PMode.val, l =>
    match skipWs l with
    | [] => none
    | c :: r =>
      if c = '\x7b' then
        if (skipWs r).head? = some '\x7d' then some (.obj [], (skipWs r).tail)
        else parseP f .members (skipWs r)
      else if c = '[' then
        if (skipWs r).head? = some ']' then some (.arr [], (skipWs r).tail)
        else parseP f .elems (skipWs r)
      else if c = '"' then (parseStrBody r).map (fun p => (JVal.str p.1, p.2))
      else if c = 't' then parseTrueTok r
      else if c = 'f' then parseFalseTok r
      else if c = 'n' then parseNullTok r
      else (parseNumberTok (c :: r)).map (fun p => (JVal.num p.1, p.2))
  | f+1, PMode.members, l =>
    match skipWs l with
    | '"' :: r =>
      (parseStrBody r).bind (fun kr =>
        (expectColon kr.2).bind (fun r2 =>
          (parseP f .val r2).bind (fun vr =>
            (memberSep vr.2).bind (fun sep =>
              if sep.1 then (parseP f .members sep.2).bind (objConsResult kr.1 vr.1)
              else some (.obj [(kr.1, vr.1)], sep.2)))))
    | _ => none
  | f+1, PMode.elems, l =>
    (parseP f .val l).bind (fun vr =>
      (elemSep vr.2).bind (fun sep =>
        if sep.1 then (parseP f .elems sep.2).bind (arrConsResult vr.1)
        else some (.arr [vr.1], sep.2)))

/-- Model of `JSON.parse`: parse one value and require only trailing
whitespace after it. -/
def jsonParse (l : List Char) : Option JVal :=
  match parseP (l.length + 1) .val l with
  | some (v, r) => if skipWs r = [] then some v else none
  | none => none

/-- Property lookup on a parsed JSON value, as JavaScript member access on a
`JSON.parse` result behaves: only objects yield the property, and with
duplicate keys the last occurrence wins. -/
def jGet (v : JVal) (key : List Char) : Option JVal :=
  match v with
  | .obj ms => ms.foldl (fun acc m => if m.1 = key then some m.2 else acc) none
  | _ => none

/-- JavaScript truthiness of a parsed JSON value.  A number token is falsy
iff its mantissa has no nonzero digit (`0`, `0.0`, `-0`, `0e9`); double
rounding of tiny magnitudes to zero is not modelled. -/
def jTruthy : JVal → Bool
  | .null => false
  | .bool b => b
  | .num raw =>
    (raw.takeWhile (fun c => c != 'e' && c != 'E')).any
      (fun c => decide (49 ≤ c.toNat ∧ c.toNat ≤ 57))
  | .str s => !s.isEmpty
  | .arr _ => true
  | .obj _ => true

/-! ## The OAuth state value (`/auth/pinterest` lines 68 to 72 and
`/callback` lines 146 to 156 of `src/server.js`) -/

def kClientId : List Char := "client_id".toList

def kClientSecret : List Char := "client_secret".toList

def kSandbox : List Char := "sandbox".toList

def sandboxTail (sb : Bool) : List Char :=
  (if sb then "true".toList else "false".toList) ++ ['\x7d']

def member3Input (sb : Bool) : List Char :=
  '"' :: (kSandbox ++ '"' :: ':' :: sandboxTail sb)

def member2Input (csec : List Char) (sb : Bool) : List Char :=
  '"' :: (kClientSecret ++ '"' :: ':' :: '"' ::
    (jsonEscapeStr csec ++ '"' :: ',' :: member3Input sb))

def member1Input (cid csec : List Char) (sb : Bool) : List Char :=
  '"' :: (kClientId ++ '"' :: ':' :: '"' ::
    (jsonEscapeStr cid ++ '"' :: ',' :: member2Input csec sb))

/-- `JSON.stringify` of the exact object literal built in the authorize step
(insertion-ordered keys `client_id`, `client_secret`, `sandbox`, no
whitespace), written in parser-aligned segments. -/
def stringifyState (cid csec : List Char) (sb : Bool) : List Char :=
  '\x7b' :: member1Input cid csec sb

/-- The JSON value the state decodes back to. -/
def stateJson (cid csec : List Char) (sb : Bool) : JVal :=
  .obj [(kClientId, .str cid), (kClientSecret, .str csec), (kSandbox, .bool sb)]

/-- The authorize step's state construction:
`Buffer.from(JSON.stringify(...)).toString('base64')`. -/
def encodeState (cid csec : List Char) (sb : Bool) : List Char :=
  b64encode (utf8Encode (stringifyState cid csec sb))

/-- The callback step's raw state decoding:
`JSON.parse(Buffer.from(state, 'base64').toString())`. -/
def decodeStateRaw (st : List Char) : Option JVal :=
  match utf8Decode (b64decode st) with
  | none => none
  | some cs => jsonParse cs

/-! ### The stringify/parse round trip -/

theorem hexVal_hexDigitChar : ∀ n < 16, hexVal (hexDigitChar n) = some n := by decide

theorem hex4_digits (c : Char) (h : c.toNat < 0x20) :
    hex4 '0' '0' (hexDigitChar (c.toNat / 16)) (hexDigitChar (c.toNat % 16)) =
      some c.toNat := by
  unfold hex4
  rw [show hexVal '0' = some 0 from rfl,
    hexVal_hexDigitChar (c.toNat / 16) (by omega),
    hexVal_hexDigitChar (c.toNat % 16) (by omega)]
  show some (((0 * 16 + 0) * 16 + c.toNat / 16) * 16 + c.toNat % 16) = some c.toNat
  congr 1
  omega

theorem parseStrBody_escape (s : List Char) :
    ∀ r, parseStrBody (jsonEscapeStr s ++ '"' :: r) = some (s, r) := by
  induction s with
  | nil => intro r; rfl
  | cons c s ih =>
    intro r
    show parseStrBody ((jsonEscapeChar c ++ jsonEscapeStr s) ++ '"' :: r) = _
    rw [List.append_assoc]
    by_cases h1 : c = '"'
    · subst h1
      show parseStrBody ('\\' :: '"' :: (jsonEscapeStr s ++ '"' :: r)) = _
      rw [show parseStrBody ('\\' :: '"' :: (jsonEscapeStr s ++ '"' :: r)) =
        (parseStrBody (jsonEscapeStr s ++ '"' :: r)).map
          (fun p => ('"' :: p.1, p.2)) from rfl, ih r]
      rfl
    · by_cases h2 : c = '\\'
      · subst h2
        show parseStrBody ('\\' :: '\\' :: (jsonEscapeStr s ++ '"' :: r)) = _
        rw [show parseStrBody ('\\' :: '\\' :: (jsonEscapeStr s ++ '"' :: r)) =
          (parseStrBody (jsonEscapeStr s ++ '"' :: r)).map
            (fun p => ('\\' :: p.1, p.2)) from rfl, ih r]
        rfl
      · by_cases h3 : c = '\x08'
        · subst h3
          show parseStrBody ('\\' :: 'b' :: (jsonEscapeStr s ++ '"' :: r)) = _
          rw [show parseStrBody ('\\' :: 'b' :: (jsonEscapeStr s ++ '"' :: r)) =
            (parseStrBody (jsonEscapeStr s ++ '"' :: r)).map
              (fun p => ('\x08' :: p.1, p.2)) from rfl, ih r]
          rfl
        · by_cases h4 : c = '\x09'
          · subst h4
            show parseStrBody ('\\' :: 't' :: (jsonEscapeStr s ++ '"' :: r)) = _
            rw [show parseStrBody ('\\' :: 't' :: (jsonEscapeStr s ++ '"' :: r)) =
              (parseStrBody (jsonEscapeStr s ++ '"' :: r)).map
                (fun p => ('\x09' :: p.1, p.2)) from rfl, ih r]
            rfl
          · by_cases h5 : c = '\x0A'
            · subst h5
              show parseStrBody ('\\' :: 'n' :: (jsonEscapeStr s ++ '"' :: r)) = _
              rw [show parseStrBody ('\\' :: 'n' :: (jsonEscapeStr s ++ '"' :: r)) =
                (parseStrBody (jsonEscapeStr s ++ '"' :: r)).map
                  (fun p => ('\x0A' :: p.1, p.2)) from rfl, ih r]
              rfl
            · by_cases h6 : c = '\x0C'
              · subst h6
                show parseStrBody ('\\' :: 'f' :: (jsonEscapeStr s ++ '"' :: r)) = _
                rw [show parseStrBody ('\\' :: 'f' :: (jsonEscapeStr s ++ '"' :: r)) =
                  (parseStrBody (jsonEscapeStr s ++ '"' :: r)).map
                    (fun p => ('\x0C' :: p.1, p.2)) from rfl, ih r]
                rfl
              · by_cases h7 : c = '\x0D'
                · subst h7
                  show parseStrBody ('\\' :: 'r' :: (jsonEscapeStr s ++ '"' :: r)) = _
                  rw [show parseStrBody ('\\' :: 'r' :: (jsonEscapeStr s ++ '"' :: r)) =
                    (parseStrBody (jsonEscapeStr s ++ '"' :: r)).map
                      (fun p => ('\x0D' :: p.1, p.2)) from rfl, ih r]
                  rfl
                · by_cases h8 : c.toNat < 0x20
                  · rw [show jsonEscapeChar c = ['\\', 'u', '0', '0',
                        hexDigitChar (c.toNat / 16), hexDigitChar (c.toNat % 16)] from by
                      unfold jsonEscapeChar
                      rw [if_neg h1, if_neg h2, if_neg h3, if_neg h4, if_neg h5, if_neg h6,
                        if_neg h7, if_pos h8]]
                    show parseStrBody ('\\' :: 'u' :: '0' :: '0' :: hexDigitChar (c.toNat / 16) ::
                      hexDigitChar (c.toNat % 16) :: (jsonEscapeStr s ++ '"' :: r)) = _
                    rw [show parseStrBody ('\\' :: 'u' :: '0' :: '0' ::
                        hexDigitChar (c.toNat / 16) :: hexDigitChar (c.toNat % 16) ::
                        (jsonEscapeStr s ++ '"' :: r)) =
                      (hex4 '0' '0' (hexDigitChar (c.toNat / 16))
                          (hexDigitChar (c.toNat % 16))).bind
                        (fun n => (parseStrBody (jsonEscapeStr s ++ '"' :: r)).map
                          (fun p => (charOfCode n :: p.1, p.2))) from rfl]
                    rw [hex4_digits c h8]
                    show (parseStrBody (jsonEscapeStr s ++ '"' :: r)).map
                      (fun p => (charOfCode c.toNat :: p.1, p.2)) = _
                    rw [charOfCode_toNat, ih r]
                    rfl
                  · rw [show jsonEscapeChar c = [c] from by
                      unfold jsonEscapeChar
                      rw [if_neg h1, if_neg h2, if_neg h3, if_neg h4, if_neg h5, if_neg h6,
                        if_neg h7, if_neg h8]]
                    show parseStrBody (c :: (jsonEscapeStr s ++ '"' :: r)) = _
                    rw [parseStrBody.eq_def]
                    split
                    · simp_all
                    · simp_all
                    · simp_all
                    · simp_all
                    · simp_all
                    · rename_i c' r' hx1 hx2 hx3 hx4 heq
                      injection heq with hc ht
                      subst hc
                      subst ht
                      rw [if_neg h8, ih r]
                      rfl

theorem if_true_eq {α : Sort _} (a b : α) : (if true = true then a else b) = a := rfl

theorem if_false_eq {α : Sort _} (a b : α) : (if false = true then a else b) = b := rfl

theorem parseP_members_more {f : Nat} {l k r1 r2 : List Char} {v : JVal}
    {r3 r4 r5 : List Char} {ms : List (List Char × JVal)}
    (hkey : parseStrBody l = some (k, r1))
    (hcolon : expectColon r1 = some r2)
    (hval : parseP f .val r2 = some (v, r3))
    (hsep : memberSep r3 = some (true, r4))
    (hrest : parseP f .members r4 = some (JVal.obj ms, r5)) :
    parseP (f+1) .members ('"' :: l) = some (.obj ((k, v) :: ms), r5) := by
  have hstep : parseP (f+1) .members ('"' :: l) =
      (parseStrBody l).bind (fun kr =>
        (expectColon kr.2).bind (fun r2 =>
          (parseP f .val r2).bind (fun vr =>
            (memberSep vr.2).bind (fun sep =>
              if sep.1 then (parseP f .members sep.2).bind (objConsResult kr.1 vr.1)
              else some (.obj [(kr.1, vr.1)], sep.2))))) := rfl
  rw [hstep, hkey]
  simp only [Option.some_bind, hcolon, hval, hsep, hrest, if_true_eq, if_true, objConsResult]

theorem parseP_members_last {f : Nat} {l k r1 r2 : List Char} {v : JVal} {r3 r4 : List Char}
    (hkey : parseStrBody l = some (k, r1))
    (hcolon : expectColon r1 = some r2)
    (hval : parseP f .val r2 = some (v, r3))
    (hsep : memberSep r3 = some (false, r4)) :
    parseP (f+1) .members ('"' :: l) = some (.obj [(k, v)], r4) := by
  have hstep : parseP (f+1) .members ('"' :: l) =
      (parseStrBody l).bind (fun kr =>
        (expectColon kr.2).bind (fun r2 =>
          (parseP f .val r2).bind (fun vr =>
            (memberSep vr.2).bind (fun sep =>
              if sep.1 then (parseP f .members sep.2).bind (objConsResult kr.1 vr.1)
              else some (.obj [(kr.1, vr.1)], sep.2))))) := rfl
  rw [hstep, hkey]
  simp only [Option.some_bind, hcolon, hval, hsep, if_false_eq, if_false]

theorem parseP_str_val (f : Nat) (s r : List Char) :
    parseP (f+1) .val ('"' :: (jsonEscapeStr s ++ '"' :: r)) = some (.str s, r) := by
  have hstep : parseP (f+1) .val ('"' :: (jsonEscapeStr s ++ '"' :: r)) =
      (parseStrBody (jsonEscapeStr s ++ '"' :: r)).map (fun p => (JVal.str p.1, p.2)) := rfl
  rw [hstep, parseStrBody_escape s r]
  rfl

theorem parseP_member3 (f : Nat) (sb : Bool) :
    parseP (f+1+1) .members (member3Input sb) =
      some (.obj [(kSandbox, .bool sb)], []) := by
  cases sb <;> rfl

theorem parseP_member2 (f : Nat) (csec : List Char) (sb : Bool) :
    parseP (f+1+1+1) .members (member2Input csec sb) =
      some (.obj [(kClientSecret, .str csec), (kSandbox, .bool sb)], []) := by
  have hkey : parseStrBody (kClientSecret ++ '"' :: ':' :: '"' ::
      (jsonEscapeStr csec ++ '"' :: ',' :: member3Input sb)) =
      some (kClientSecret, ':' :: '"' ::
        (jsonEscapeStr csec ++ '"' :: ',' :: member3Input sb)) := rfl
  have hcolon : expectColon (':' :: '"' ::
      (jsonEscapeStr csec ++ '"' :: ',' :: member3Input sb)) =
      some ('"' :: (jsonEscapeStr csec ++ '"' :: ',' :: member3Input sb)) := rfl
  have hval : parseP (f+1+1) .val
      ('"' :: (jsonEscapeStr csec ++ '"' :: ',' :: member3Input sb)) =
      some (.str csec, ',' :: member3Input sb) :=
    parseP_str_val (f+1) csec (',' :: member3Input sb)
  have hsep : memberSep (',' :: member3Input sb) = some (true, member3Input sb) := rfl
  have hrest := parseP_member3 f sb
  exact parseP_members_more hkey hcolon hval hsep hrest

theorem parseP_member1 (f : Nat) (cid csec : List Char) (sb : Bool) :
    parseP (f+1+1+1+1) .members (member1Input cid csec sb) =
      some (.obj [(kClientId, .str cid), (kClientSecret, .str csec),
        (kSandbox, .bool sb)], []) := by
  have hkey : parseStrBody (kClientId ++ '"' :: ':' :: '"' ::
      (jsonEscapeStr cid ++ '"' :: ',' :: member2Input csec sb)) =
      some (kClientId, ':' :: '"' ::
        (jsonEscapeStr cid ++ '"' :: ',' :: member2Input csec sb)) := rfl
  have hcolon : expectColon (':' :: '"' ::
      (jsonEscapeStr cid ++ '"' :: ',' :: member2Input csec sb)) =
      some ('"' :: (jsonEscapeStr cid ++ '"' :: ',' :: member2Input csec sb)) := rfl
  have hval : parseP (f+1+1+1) .val
      ('"' :: (jsonEscapeStr cid ++ '"' :: ',' :: member2Input csec sb)) =
      some (.str cid, ',' :: member2Input csec sb) :=
    parseP_str_val (f+1+1) cid (',' :: member2Input csec sb)
  have hsep : memberSep (',' :: member2Input csec sb) =
      some (true, member2Input csec sb) := rfl
  have hrest := parseP_member2 f csec sb
  exact parseP_members_more hkey hcolon hval hsep hrest

theorem parseP_stringifyState (f : Nat) (cid csec : List Char) (sb : Bool) :
    parseP (f+1+1+1+1+1) .val (stringifyState cid csec sb) =
      some (stateJson cid csec sb, []) := by
  have hstep : parseP (f+1+1+1+1+1) .val (stringifyState cid csec sb) =
      parseP (f+1+1+1+1) .members (member1Input cid csec sb) := rfl
  rw [hstep, parseP_member1 f cid csec sb]
  rfl

theorem jsonParse_stringifyState (cid csec : List Char) (sb : Bool) :
    jsonParse (stringifyState cid csec sb) = some (stateJson cid csec sb) := by
  have h4 : 4 ≤ (stringifyState cid csec sb).length := by
    simp only [stringifyState, member1Input, List.length_cons, List.length_append]
    omega
  obtain ⟨g, hg⟩ : ∃ g, (stringifyState cid csec sb).length + 1 = g+1+1+1+1+1 :=
    ⟨(stringifyState cid csec sb).length - 4, by omega⟩
  unfold jsonParse
  rw [hg, parseP_stringifyState g cid csec sb]
  rfl

theorem decodeStateRaw_encodeState (cid csec : List Char) (sb : Bool) :
    decodeStateRaw (encodeState cid csec sb) = some (stateJson cid csec sb) := by
  unfold decodeStateRaw encodeState
  rw [b64_roundtrip _ (utf8Encode_lt _), utf8_roundtrip]
  show jsonParse (stringifyState cid csec sb) = _
  exact jsonParse_stringifyState cid csec sb

/-! ## The OAuth endpoints (`src/server.js`) -/

/-- Truthiness of an Express query parameter / request-body string: absent or
empty is falsy. -/
def truthyQ : Option (List Char) → Bool
  | none => false
  | some s => !s.isEmpty

/-- Lines 146 to 156 of the callback: `if (!state) throw`, base64 + JSON
decoding, member reads, and `if (!client_id || !client_secret) throw`; every
throw is caught by the surrounding `catch`, so the result is an `Option`.
A `JSON.parse` result of `null` is folded into `none`: reading `.client_id`
from it throws, landing in the same `catch`. -/
def decodeStateValidated (st : Option (List Char)) :
    Option (JVal × JVal × Option JVal) :=
  match st with
  | none => none
  | some s =>
    if s = [] then none
    else
      match decodeStateRaw s with
      | none => none
      | some j =>
        match jGet j kClientId, jGet j kClientSecret with
        | some vc, some vs =>
          if jTruthy vc && jTruthy vs then some (vc, vs, jGet j kSandbox) else none
        | _, _ => none

/-- Error classes of lines 100 to 112 of the callback. -/
inductive AuthErrorClass where
  | accessDenied
  | invalidClient
  | redirectMismatch
  | other

def classifyAuthError (err : List Char) : AuthErrorClass :=
  if err = "access_denied".toList then .accessDenied
  else if err = "invalid_request".toList ∨ err = "invalid_client".toList then .invalidClient
  else if jsIncludes "redirect_uri".toList err then .redirectMismatch
  else .other

structure CallbackQuery where
  error : Option (List Char)
  error_description : Option (List Char)
  code : Option (List Char)
  state : Option (List Char)

/-- Outcome of the `/callback` handler up to its single outbound token
request: one of the three diagnostic pages (with their HTTP status), or the
token exchange with the credentials recovered from the state. -/
inductive CallbackResult where
  | authErrorPage (status : Nat) (cls : AuthErrorClass) (msg : List Char)
  | noCodePage (status : Nat)
  | sessionErrorPage (status : Nat)
  | tokenRequest (client_id client_secret : JVal) (sandbox : Option JVal) (code : List Char)

/-- The `/callback` handler, lines 86 to 169 of `src/server.js`. -/
def callbackStep (q : CallbackQuery) : CallbackResult :=
  if truthyQ q.error then
    .authErrorPage 400 (classifyAuthError (q.error.getD []))
      (if truthyQ q.error_description then q.error_description.getD [] else q.error.getD [])
  else if !truthyQ q.code then .noCodePage 400
  else
    match decodeStateValidated q.state with
    | none => .sessionErrorPage 400
    | some (cid, csec, sbv) => .tokenRequest cid csec sbv (q.code.getD [])

/-- Outcome of the `/auth/pinterest` handler: the 400 configuration-error
page, or the redirect carrying the base64 state. -/
inductive AuthRedirect where
  | configErrorPage (status : Nat)
  | redirect (client_id : List Char) (state : List Char)

/-- The `/auth/pinterest` handler, lines 45 to 84 of `src/server.js`. -/
def authStep (client_id client_secret sandbox : Option (List Char)) : AuthRedirect :=
  let cleanId := jsTrim (client_id.getD [])
  let cleanSecret := jsTrim (client_secret.getD [])
  if cleanId = [] ∨ cleanSecret = [] then .configErrorPage 400
  else .redirect cleanId (encodeState cleanId cleanSecret (sandbox = some "true".toList))

/-! ## Runtime configuration (`setupEnv`, lines 25 to 41 of `src/server.js`) -/

/-- The `pinterest_sandbox` value of a request body: JSON booleans and
strings both occur, hence the explicit `sandboxValue === true ||
sandboxValue === 'true'` check in the source. -/
inductive SandboxVal where
  | bool (b : Bool)
  | str (s : List Char)
  | undef
deriving DecidableEq

/-- The process-environment keys the server reads and writes.  A missing
variable and an empty string are conflated: the source only ever tests them
for truthiness and compares them to literals. -/
structure Env where
  OPENROUTER_API_KEY : List Char
  PINTEREST_ACCESS_TOKEN : List Char
  PINTEREST_BOARD_ID : List Char
  WEBSITE_URL : List Char
  OPENROUTER_MODEL : List Char
  PINTEREST_APP_ID : List Char
  PINTEREST_APP_SECRET : List Char
  PINTEREST_SANDBOX : List Char

/-- The per-request `config` object of the request body. -/
structure ReqConfig where
  openrouter_key : List Char
  pinterest_token : List Char
  pinterest_board : List Char
  website_url : List Char
  openrouter_model : List Char
  pinterest_app_id : List Char
  pinterest_app_secret : List Char
  pinterest_sandbox : SandboxVal

/-- `setupEnv`: each key is overwritten only when the request supplies a
truthy value; the sandbox flag is always rewritten to the string `'true'`
or `'false'`.  `if (!data) return` handles an absent config. -/
def setupEnv (data : Option ReqConfig) (env : Env) : Env :=
  match data with
  | none => env
  | some d =>
    { OPENROUTER_API_KEY :=
        if d.openrouter_key = [] then env.OPENROUTER_API_KEY else d.openrouter_key
      PINTEREST_ACCESS_TOKEN :=
        if d.pinterest_token = [] then env.PINTEREST_ACCESS_TOKEN else d.pinterest_token
      PINTEREST_BOARD_ID :=
        if d.pinterest_board = [] then env.PINTEREST_BOARD_ID else d.pinterest_board
      WEBSITE_URL := if d.website_url = [] then env.WEBSITE_URL else d.website_url
      OPENROUTER_MODEL :=
        if d.openrouter_model = [] then env.OPENROUTER_MODEL else d.openrouter_model
      PINTEREST_APP_ID :=
        if d.pinterest_app_id = [] then env.PINTEREST_APP_ID else d.pinterest_app_id
      PINTEREST_APP_SECRET :=
        if d.pinterest_app_secret = [] then env.PINTEREST_APP_SECRET
        else d.pinterest_app_secret
      PINTEREST_SANDBOX :=
        if d.pinterest_sandbox = .bool true ∨ d.pinterest_sandbox = .str "true".toList
        then "true".toList else "false".toList }

/-! ## The `/api/post-pin` route (lines 286 to 351 of `src/server.js`) -/

def defaultSiteUrl : List Char := "https://www.omarecipes.com".toList

/-- Lines 324 to 327: trim the request link and substitute
`config.website_url || defaultSiteUrl` for an empty or bare-scheme link. -/
def substituteLink (websiteUrl configUrl : List Char) : List Char :=
  if jsTrim websiteUrl = [] ∨ jsTrim websiteUrl = "https://".toList ∨
      jsTrim websiteUrl = "http://".toList then
    (if configUrl = [] then defaultSiteUrl else configUrl)
  else jsTrim websiteUrl

/-- Link normalization, lines 324 to 330: the substitution above followed by
prefixing `https://` when the result does not start with `http`. -/
def normalizeLink (websiteUrl configUrl : List Char) : List Char :=
  if "http".toList.isPrefixOf (substituteLink websiteUrl configUrl)
  then substituteLink websiteUrl configUrl
  else "https://".toList ++ substituteLink websiteUrl configUrl

/-- The SEO content produced by the Content Generator, as `/api/post-pin`
consumes it when the request omits a description. -/
structure PinContent where
  title : List Char
  description : List Char
  hashtags : List (List Char)
  altText : List Char

/-- Line 250 of `src/pinterest-poster.js`:
the final description submitted by `createPin`. -/
def fullDescription (description : List Char) (hashtags : List (List Char)) : List Char :=
  description ++ '\n' :: '\n' :: jsJoin [' '] (hashtags.map (fun h => '#' :: h))

/-- The JSON body `createPin` posts to the platform's pins endpoint
(lines 257 to 270 of `src/pinterest-poster.js`); the image bytes are carried
as the base64 payload written to and re-read from disk. -/
structure PinRequestBody where
  board_id : List Char
  title : Option (List Char)
  description : List Char
  alt_text : Option (List Char)
  link : List Char
  media_data : List Char

def createPinBody (title : Option (List Char)) (description : List Char)
    (hashtags : List (List Char)) (altText : Option (List Char))
    (mediaData link : List Char) (env : Env) : PinRequestBody :=
  { board_id := env.PINTEREST_BOARD_ID
    title := title
    description := fullDescription description hashtags
    alt_text := altText
    link := link
    media_data := mediaData }

/-- The `hashtags` field of a post-pin request body: the route accepts an
array or a comma-separated string (line 336). -/
inductive HashVal where
  | arr (hs : List (List Char))
  | str (s : List Char)
  | undef

structure PostPinReq where
  imageData : Option (List Char)
  title : Option (List Char)
  description : Option (List Char)
  hashtags : HashVal
  altText : Option (List Char)
  websiteUrl : Option (List Char)
  config : Option ReqConfig

def stripJpegDataUrl (l : List Char) : List Char :=
  if "data:image/jpeg;base64,".toList.isPrefixOf l then
    l.drop "data:image/jpeg;base64,".toList.length
  else l

def splitCommaTrim (s : List Char) : List (List Char) :=
  (splitOnChar ',' s).map jsTrim

/-- Outcome of `/api/post-pin`: a 500 JSON error produced by the route's
`catch`, or the publish call handed to `createPin`. -/
inductive PostPinResult where
  | failure (msg : List Char)
  | publish (body : PinRequestBody)

def tokenMissingMsg : List Char :=
  "Pinterest Token is missing. Please connect first.".toList

def boardMissingMsg : List Char :=
  "Pinterest Board ID is missing. Please enter it in Settings".toList

/-- Stands for the message of the `TypeError` the route throws when it reads
a property of `undefined` (absent `config`, `imageData`, `websiteUrl` or
`hashtags`); the `catch` turns it into the same structured 500 response. -/
def typeErrorMsg : List Char := "TypeError".toList

/-- Lines 309 to 322: the request content is used when a truthy description
is supplied, otherwise the generated SEO content fills the gaps (the title
only when the request's own title is falsy). -/
def resolvedTitle (req : PostPinReq) (seo : PinContent) : Option (List Char) :=
  if !truthyQ req.description && !truthyQ req.title then some seo.title else req.title

def resolvedDesc (req : PostPinReq) (seo : PinContent) : List Char :=
  if !truthyQ req.description then seo.description else req.description.getD []

def resolvedHash (req : PostPinReq) (seo : PinContent) : HashVal :=
  if !truthyQ req.description then .arr seo.hashtags else req.hashtags

def resolvedAlt (req : PostPinReq) (seo : PinContent) : Option (List Char) :=
  if !truthyQ req.description then some seo.altText else req.altText

/-- The `/api/post-pin` handler.  `seo` is the content the generator would
return; it is consulted only on the branch where the request has no truthy
description, exactly as in the source. -/
def postPin (req : PostPinReq) (seo : PinContent) (env0 : Env) : PostPinResult :=
  if (setupEnv req.config env0).PINTEREST_ACCESS_TOKEN = [] ∨
      (setupEnv req.config env0).PINTEREST_ACCESS_TOKEN = "undefined".toList then
    .failure tokenMissingMsg
  else
    match req.config with
    | none => .failure typeErrorMsg
    | some cfg =>
      if cfg.pinterest_board = [] then .failure boardMissingMsg
      else
        match req.imageData with
        | none => .failure typeErrorMsg
        | some img =>
          match req.websiteUrl with
          | none => .failure typeErrorMsg
          | some wurl =>
            match resolvedHash req seo with
            | .undef => .failure typeErrorMsg
            | .arr hs =>
              .publish (createPinBody (resolvedTitle req seo) (resolvedDesc req seo) hs
                (resolvedAlt req seo) (stripJpegDataUrl img)
                (normalizeLink wurl cfg.website_url) (setupEnv req.config env0))
            | .str s =>
              .publish (createPinBody (resolvedTitle req seo) (resolvedDesc req seo)
                (splitCommaTrim s) (resolvedAlt req seo) (stripJpegDataUrl img)
                (normalizeLink wurl cfg.website_url) (setupEnv req.config env0))

/-! ## The poster banner (`createTextSVG`, lines 114 to 173, and `escapeXml`,
lines 175 to 182 of `src/pinterest-poster.js`) -/

/-- One iteration of the wrapping loop, lines 125 to 132: state is the
accumulated lines plus the running line (`currentLine`); the candidate is
`(currentLine + ' ' + word).trim()`. -/
def wrapStep (st : List (List Char) × List Char) (word : List Char) :
    List (List Char) × List Char :=
  if utf16Len (jsTrim (st.2 ++ ' ' :: word)) ≤ 25 then (st.1, jsTrim (st.2 ++ ' ' :: word))
  else (if st.2 = [] then st.1 else st.1 ++ [st.2], word)

/-- Title wrapping, lines 117 to 136: a title of more than 25 UTF-16 units
is split on single spaces and re-joined greedily by `wrapStep`, flushing the
final running line if non-empty; shorter titles stay as one line. -/
def wrapLines (titleUpper : List Char) : List (List Char) :=
  if 25 < utf16Len titleUpper then
    if ((splitOnChar ' ' titleUpper).foldl wrapStep ([], [])).2 = [] then
      ((splitOnChar ' ' titleUpper).foldl wrapStep ([], [])).1
    else
      ((splitOnChar ' ' titleUpper).foldl wrapStep ([], [])).1 ++
        [((splitOnChar ' ' titleUpper).foldl wrapStep ([], [])).2]
  else [titleUpper]

/-- Font-size policy, lines 139 to 141: base 72, drop to 60 when a line
exceeds 20 characters, drop to 50 when a line exceeds 25. -/
def fontSizeFor (lines : List (List Char)) : Nat :=
  let f1 := 72
  let f2 := if lines.any (fun l => 20 < utf16Len l) then 60 else f1
  if lines.any (fun l => 25 < utf16Len l) then 50 else f2

/-- One global single-character replacement, `String.prototype.replace` with
a `/x/g` pattern. -/
def replaceAllChar (t : Char) (rep : List Char) : List Char → List Char
  | [] => []
  | c :: r => (if c = t then rep else [c]) ++ replaceAllChar t rep r

/-- `escapeXml`, lines 175 to 182: the five sequential global replacements,
ampersand first. -/
def escapeXml (l : List Char) : List Char :=
  replaceAllChar '\'' "&apos;".toList
    (replaceAllChar '"' "&quot;".toList
      (replaceAllChar '>' "&gt;".toList
        (replaceAllChar '<' "&lt;".toList
          (replaceAllChar '&' "&amp;".toList l))))

/-- The simultaneous per-character escaping map that `escapeXml` should
amount to; used to state the injection-safety claim. -/
def xmlEscapeChar (c : Char) : List Char :=
  if c = '&' then "&amp;".toList
  else if c = '<' then "&lt;".toList
  else if c = '>' then "&gt;".toList
  else if c = '"' then "&quot;".toList
  else if c = '\'' then "&apos;".toList
  else [c]

/-- The text payloads placed inside the generated SVG banner, in document
order: one `<text>` element per wrapped line of the upper-cased title
(each interpolated as `escapeXml(line)`, line 154), then the site caption
when truthy (line 164). -/
def svgTextContents (title websiteUrl : List Char) : List (List Char) :=
  (wrapLines (jsToUpper title)).map escapeXml ++
    (if websiteUrl = [] then [] else [escapeXml websiteUrl])

/-! ## The Content Generator (`generatePinContent`,
lines 89 to 104 of `src/pinterest-poster.js`) -/

/-- The first match of `/\x7b[\s\S]*\x7d/` in the response text: from the
first opening brace through the last closing brace, provided the closing
brace comes after the opening one. -/
def extractJsonSubstring (content : List Char) : Option (List Char) :=
  if content.dropWhile (fun c => c != '\x7b') = [] then none
  else if ((content.dropWhile (fun c => c != '\x7b')).reverse.dropWhile
      (fun c => c != '\x7d')).reverse = [] then none
  else some ((content.dropWhile (fun c => c != '\x7b')).reverse.dropWhile
      (fun c => c != '\x7d')).reverse

/-- Outcome of the JSON-extraction step of `generatePinContent`:
the parsed value, the `Invalid JSON response from OpenRouter` error thrown
when no brace-delimited substring exists, or the `JSON.parse` syntax error
(rethrown with the parser's own message). -/
inductive GenResult where
  | ok (v : JVal)
  | invalidResponse
  | parseFailure

def generatePinContentModel (content : List Char) : GenResult :=
  match extractJsonSubstring content with
  | none => .invalidResponse
  | some js =>
    match jsonParse js with
    | some v => .ok v
    | none => .parseFailure

/-- Reference greedy line-wrap following the spec's words: append whole
words to the running line while it stays within 25 characters, flush to a
new line otherwise, never splitting a word. -/
def specGreedyWrap (cur : List Char) : List (List Char) → List (List Char)
  | [] => [cur]
  | w :: ws =>
    if utf16Len cur + 1 + utf16Len w ≤ 25 then specGreedyWrap (cur ++ ' ' :: w) ws
    else cur :: specGreedyWrap w ws

/-! ## Claim C1 -/

/-- C1: OAuth state round-trip.  For every client id, client secret and
sandbox flag, the base64(JSON) state built in the `/auth/pinterest` step
decodes in the `/callback` step to the identical structure; and for every
state value on which the decode-and-validate step fails (corrupted,
non-base64, or lacking credentials), the callback with a code present
renders the 400 session-error page — the handler never escapes its `catch`. -/
theorem C1_oauth_state_roundtrip :
    (∀ cid csec sb,
      decodeStateRaw (encodeState cid csec sb) = some (stateJson cid csec sb)) ∧
    (∀ st cd, cd ≠ [] → decodeStateValidated (some st) = none →
      callbackStep ⟨none, none, some cd, some st⟩ = .sessionErrorPage 400) := by
  constructor
  · exact decodeStateRaw_encodeState
  · intro st cd hcd hdec
    unfold callbackStep
    rw [show truthyQ (none : Option (List Char)) = false from rfl]
    rw [show truthyQ (some cd) = true from by
      simp [truthyQ, List.isEmpty_eq_true, hcd]]
    simp [hdec]

theorem C1_oauth_state_roundtrip_witness :
    decodeStateRaw (encodeState "X".toList "Y".toList true) =
      some (stateJson "X".toList "Y".toList true) ∧
    callbackStep ⟨none, none, some "c".toList, some "!!!".toList⟩ =
      .sessionErrorPage 400 :=
  ⟨C1_oauth_state_roundtrip.1 "X".toList "Y".toList true,
   C1_oauth_state_roundtrip.2 "!!!".toList "c".toList (by decide) (by rfl)⟩

/-! ## Claim C2 -/

/-- C2: callback branching priority.  For every request to `/callback`
exactly one branch fires, in this order: a truthy `error` renders the
classified 400 authorization-error page; otherwise a missing `code` renders
the 400 no-code page; otherwise the state is decoded, and a decode failure
or missing credentials renders the 400 session-error page while a valid
state proceeds to the token exchange. -/
theorem C2_callback_branching (q : CallbackQuery) :
    (truthyQ q.error = true →
      callbackStep q = .authErrorPage 400 (classifyAuthError (q.error.getD []))
        (if truthyQ q.error_description then q.error_description.getD []
         else q.error.getD [])) ∧
    (truthyQ q.error = false → truthyQ q.code = false →
      callbackStep q = .noCodePage 400) ∧
    (truthyQ q.error = false → truthyQ q.code = true →
      (decodeStateValidated q.state = none → callbackStep q = .sessionErrorPage 400) ∧
      (∀ cid csec sbv, decodeStateValidated q.state = some (cid, csec, sbv) →
        callbackStep q = .tokenRequest cid csec sbv (q.code.getD []))) := by
  refine ⟨?_, ?_, ?_⟩
  · intro he
    unfold callbackStep
    rw [he]
    rfl
  · intro he hc
    unfold callbackStep
    rw [he, hc]
    rfl
  · intro he hc
    constructor
    · intro hdec
      unfold callbackStep
      rw [he, hc, hdec]
      rfl
    · intro cid csec sbv hdec
      unfold callbackStep
      rw [he, hc, hdec]
      rfl

theorem C2_callback_branching_witness :
    callbackStep ⟨none, none, none, none⟩ = .noCodePage 400 :=
  (C2_callback_branching ⟨none, none, none, none⟩).2.1 rfl rfl

/-! ## Claim C3 -/

/-- C3 counterexample: with the configured default site URL `example.com`
(no scheme) and an empty request link, the final link is
`https://example.com`, which differs from the configured default — so the
final link does not always equal the configured default site URL. -/
theorem C3_link_normalization_counterexample :
    normalizeLink [] "example.com".toList = "https://example.com".toList ∧
    normalizeLink [] "example.com".toList ≠ "example.com".toList := by
  constructor
  · decide
  · decide

/-- C3 (amended): for trimmed inputs in the substitution set ("",
"https://", "http://") the final link equals the configured default site
URL (or the hard-coded default when none is configured) after the same
scheme normalization — unchanged when the default already starts with
`http`, prefixed with `https://` otherwise; any other trimmed link is kept
when it starts with `http` and prefixed with `https://` otherwise (so the
normalizer is idempotent on already-valid absolute URLs). -/
theorem C3_link_normalization (w cfg : List Char) :
    ((jsTrim w = [] ∨ jsTrim w = "https://".toList ∨ jsTrim w = "http://".toList) →
      normalizeLink w cfg =
        (if "http".toList.isPrefixOf (if cfg = [] then defaultSiteUrl else cfg)
         then (if cfg = [] then defaultSiteUrl else cfg)
         else "https://".toList ++ (if cfg = [] then defaultSiteUrl else cfg))) ∧
    (¬ (jsTrim w = [] ∨ jsTrim w = "https://".toList ∨ jsTrim w = "http://".toList) →
      ("http".toList.isPrefixOf (jsTrim w) = true → normalizeLink w cfg = jsTrim w) ∧
      ("http".toList.isPrefixOf (jsTrim w) = false →
        normalizeLink w cfg = "https://".toList ++ jsTrim w)) := by
  have hsub1 : (jsTrim w = [] ∨ jsTrim w = "https://".toList ∨
      jsTrim w = "http://".toList) →
      substituteLink w cfg = (if cfg = [] then defaultSiteUrl else cfg) := by
    intro h
    unfold substituteLink
    rw [if_pos h]
  have hsub2 : ¬ (jsTrim w = [] ∨ jsTrim w = "https://".toList ∨
      jsTrim w = "http://".toList) →
      substituteLink w cfg = jsTrim w := by
    intro h
    unfold substituteLink
    rw [if_neg h]
  constructor
  · intro h
    unfold normalizeLink
    rw [hsub1 h]
  · intro h
    constructor
    · intro hp
      unfold normalizeLink
      rw [hsub2 h, if_pos hp]
    · intro hp
      unfold normalizeLink
      rw [hsub2 h, if_neg (by rw [hp]; exact Bool.false_ne_true)]

theorem C3_link_normalization_witness :
    normalizeLink "example.com".toList defaultSiteUrl = "https://example.com".toList ∧
    normalizeLink "https://example.com".toList defaultSiteUrl =
      "https://example.com".toList ∧
    normalizeLink "".toList [] = defaultSiteUrl := by
  refine ⟨?_, ?_, ?_⟩
  · exact (((C3_link_normalization "example.com".toList defaultSiteUrl).2
      (by decide)).2 (by decide)).trans (by decide)
  · exact (((C3_link_normalization "https://example.com".toList defaultSiteUrl).2
      (by decide)).1 (by decide)).trans (by decide)
  · exact ((C3_link_normalization "".toList []).1 (by decide)).trans (by decide)

/-! ## Claim C5 -/

/-- C5: font-size tiering.  For every set of wrapped lines produced by the
title layout, the base size 72 is used when every line has at most 20
characters, the middle size 60 when some line exceeds 20 but none exceeds
25, and the smallest size 50 when some line exceeds 25 — exactly three
discrete tiers. -/
theorem C5_font_size_tiering (u : List Char) :
    ((∀ l ∈ wrapLines u, utf16Len l ≤ 20) → fontSizeFor (wrapLines u) = 72) ∧
    ((∃ l ∈ wrapLines u, 20 < utf16Len l) → (∀ l ∈ wrapLines u, utf16Len l ≤ 25) →
      fontSizeFor (wrapLines u) = 60) ∧
    ((∃ l ∈ wrapLines u, 25 < utf16Len l) → fontSizeFor (wrapLines u) = 50) := by
  refine ⟨?_, ?_, ?_⟩
  · intro h
    unfold fontSizeFor
    rw [if_neg (by
      simp only [List.any_eq_true, decide_eq_true_eq, not_exists]
      rintro l ⟨hl, hlt⟩
      have := h l hl
      omega)]
    rw [if_neg (by
      simp only [List.any_eq_true, decide_eq_true_eq, not_exists]
      rintro l ⟨hl, hlt⟩
      have := h l hl
      omega)]
  · rintro ⟨l0, hl0, hlt0⟩ h
    unfold fontSizeFor
    rw [if_neg (by
      simp only [List.any_eq_true, decide_eq_true_eq, not_exists]
      rintro l ⟨hl, hlt⟩
      have := h l hl
      omega)]
    rw [if_pos (by
      simp only [List.any_eq_true, decide_eq_true_eq]
      exact ⟨l0, hl0, hlt0⟩)]
  · rintro ⟨l0, hl0, hlt0⟩
    unfold fontSizeFor
    rw [if_pos (by
      simp only [List.any_eq_true, decide_eq_true_eq]
      exact ⟨l0, hl0, hlt0⟩)]

theorem C5_font_size_tiering_witness :
    fontSizeFor (wrapLines "HELLO".toList) = 72 ∧
    fontSizeFor (wrapLines "CHOCOLATE HAZELNUT CAKE POPS".toList) = 60 ∧
    fontSizeFor (wrapLines "SUPERCALIFRAGILISTICEXPIALIDOCIOUS".toList) = 50 :=
  ⟨(C5_font_size_tiering "HELLO".toList).1 (by decide),
   (C5_font_size_tiering "CHOCOLATE HAZELNUT CAKE POPS".toList).2.1
     (by decide) (by decide),
   (C5_font_size_tiering "SUPERCALIFRAGILISTICEXPIALIDOCIOUS".toList).2.2 (by decide)⟩

/-! ## Claim C6 -/

theorem jsJoin_intersperse (sep : List Char) (l : List (List Char)) :
    jsJoin sep l = (l.intersperse sep).flatten := by
  induction l with
  | nil => rfl
  | cons x xs ih =>
    cases xs with
    | nil => simp [jsJoin, List.intersperse]
    | cons y ys =>
      rw [show jsJoin sep (x :: y :: ys) = x ++ sep ++ jsJoin sep (y :: ys) from rfl, ih]
      rw [List.intersperse_cons₂, List.flatten_cons, List.flatten_cons]
      rw [List.append_assoc]

/-- C6: hashtag join.  The description `createPin` submits equals the
description, two newlines, then the hashtags each prefixed with `#` and
joined by single spaces, with no other normalization; in particular
description `D` with hashtags `a` and `b c` yields `D\n\n#a #b c`. -/
theorem C6_hashtag_join :
    (∀ (title : Option (List Char)) (d : List Char) (hs : List (List Char))
      (alt : Option (List Char)) (media link : List Char) (env : Env),
      (createPinBody title d hs alt media link env).description =
        d ++ '\n' :: '\n' ::
          ((hs.map (fun h => '#' :: h)).intersperse [' ']).flatten) ∧
    fullDescription "D".toList ["a".toList, "b c".toList] = "D\n\n#a #b c".toList := by
  constructor
  · intro title d hs alt media link env
    show fullDescription d hs = _
    unfold fullDescription
    rw [jsJoin_intersperse]
  · decide

/-! ## Claim C9 -/

/-- C9: config merge frame.  Each of the seven credential/config keys
overwrites the corresponding process-wide value exactly when the request
supplies a non-empty value (and is untouched otherwise), while the sandbox
flag is rewritten on every merge: to `'true'` exactly when the supplied
value is boolean `true` or the string `'true'`, and to `'false'` in every
other case, including when the request omits it. -/
theorem C9_config_merge (d : ReqConfig) (env : Env) :
    ((d.openrouter_key ≠ [] →
        (setupEnv (some d) env).OPENROUTER_API_KEY = d.openrouter_key) ∧
      (d.openrouter_key = [] →
        (setupEnv (some d) env).OPENROUTER_API_KEY = env.OPENROUTER_API_KEY)) ∧
    ((d.pinterest_token ≠ [] →
        (setupEnv (some d) env).PINTEREST_ACCESS_TOKEN = d.pinterest_token) ∧
      (d.pinterest_token = [] →
        (setupEnv (some d) env).PINTEREST_ACCESS_TOKEN = env.PINTEREST_ACCESS_TOKEN)) ∧
    ((d.pinterest_board ≠ [] →
        (setupEnv (some d) env).PINTEREST_BOARD_ID = d.pinterest_board) ∧
      (d.pinterest_board = [] →
        (setupEnv (some d) env).PINTEREST_BOARD_ID = env.PINTEREST_BOARD_ID)) ∧
    ((d.website_url ≠ [] → (setupEnv (some d) env).WEBSITE_URL = d.website_url) ∧
      (d.website_url = [] → (setupEnv (some d) env).WEBSITE_URL = env.WEBSITE_URL)) ∧
    ((d.openrouter_model ≠ [] →
        (setupEnv (some d) env).OPENROUTER_MODEL = d.openrouter_model) ∧
      (d.openrouter_model = [] →
        (setupEnv (some d) env).OPENROUTER_MODEL = env.OPENROUTER_MODEL)) ∧
    ((d.pinterest_app_id ≠ [] →
        (setupEnv (some d) env).PINTEREST_APP_ID = d.pinterest_app_id) ∧
      (d.pinterest_app_id = [] →
        (setupEnv (some d) env).PINTEREST_APP_ID = env.PINTEREST_APP_ID)) ∧
    ((d.pinterest_app_secret ≠ [] →
        (setupEnv (some d) env).PINTEREST_APP_SECRET = d.pinterest_app_secret) ∧
      (d.pinterest_app_secret = [] →
        (setupEnv (some d) env).PINTEREST_APP_SECRET = env.PINTEREST_APP_SECRET)) ∧
    ((d.pinterest_sandbox = .bool true ∨ d.pinterest_sandbox = .str "true".toList →
        (setupEnv (some d) env).PINTEREST_SANDBOX = "true".toList) ∧
      (¬ (d.pinterest_sandbox = .bool true ∨ d.pinterest_sandbox = .str "true".toList) →
        (setupEnv (some d) env).PINTEREST_SANDBOX = "false".toList) ∧
      (d.pinterest_sandbox = .undef →
        (setupEnv (some d) env).PINTEREST_SANDBOX = "false".toList)) := by
  refine ⟨⟨?_, ?_⟩, ⟨?_, ?_⟩, ⟨?_, ?_⟩, ⟨?_, ?_⟩, ⟨?_, ?_⟩, ⟨?_, ?_⟩, ⟨?_, ?_⟩,
    ?_, ?_, ?_⟩
  · intro h; simp [setupEnv, h]
  · intro h; simp [setupEnv, h]
  · intro h; simp [setupEnv, h]
  · intro h; simp [setupEnv, h]
  · intro h; simp [setupEnv, h]
  · intro h; simp [setupEnv, h]
  · intro h; simp [setupEnv, h]
  · intro h; simp [setupEnv, h]
  · intro h; simp [setupEnv, h]
  · intro h; simp [setupEnv, h]
  · intro h; simp [setupEnv, h]
  · intro h; simp [setupEnv, h]
  · intro h; simp [setupEnv, h]
  · intro h; simp [setupEnv, h]
  · intro h
    show (if d.pinterest_sandbox = .bool true ∨ d.pinterest_sandbox = .str "true".toList
      then "true".toList else "false".toList) = "true".toList
    rw [if_pos h]
  · intro h
    show (if d.pinterest_sandbox = .bool true ∨ d.pinterest_sandbox = .str "true".toList
      then "true".toList else "false".toList) = "false".toList
    rw [if_neg h]
  · intro h
    show (if d.pinterest_sandbox = .bool true ∨ d.pinterest_sandbox = .str "true".toList
      then "true".toList else "false".toList) = "false".toList
    rw [if_neg (by rw [h]; rintro (h1 | h1) <;> exact SandboxVal.noConfusion h1)]

theorem C9_config_merge_witness :
    (setupEnv (some ⟨"k".toList, [], [], [], [], [], [], .undef⟩)
        ⟨[], "t".toList, [], [], [], [], [], []⟩).OPENROUTER_API_KEY = "k".toList ∧
    (setupEnv (some ⟨"k".toList, [], [], [], [], [], [], .undef⟩)
        ⟨[], "t".toList, [], [], [], [], [], []⟩).PINTEREST_ACCESS_TOKEN = "t".toList ∧
    (setupEnv (some ⟨"k".toList, [], [], [], [], [], [], .undef⟩)
        ⟨[], "t".toList, [], [], [], [], [], []⟩).PINTEREST_SANDBOX = "false".toList :=
  ⟨(C9_config_merge _ _).1.1 (by decide),
   (C9_config_merge ⟨"k".toList, [], [], [], [], [], [], .undef⟩
     ⟨[], "t".toList, [], [], [], [], [], []⟩).2.1.2 rfl,
   (C9_config_merge ⟨"k".toList, [], [], [], [], [], [], .undef⟩
     ⟨[], "t".toList, [], [], [], [], [], []⟩).2.2.2.2.2.2.2.2.2 rfl⟩

/-! ## Claim C7 -/

/-- A board id is present, whether set per-request (in the request's
config) or globally (in the environment after the merge). -/
def boardPresent (req : PostPinReq) (env0 : Env) : Prop :=
  (∃ cfg, req.config = some cfg ∧ cfg.pinterest_board ≠ []) ∨
    (setupEnv req.config env0).PINTEREST_BOARD_ID ≠ []

/-- The merged access token is present and not the `'undefined'`
placeholder. -/
def tokenUsable (req : PostPinReq) (env0 : Env) : Prop :=
  (setupEnv req.config env0).PINTEREST_ACCESS_TOKEN ≠ [] ∧
    (setupEnv req.config env0).PINTEREST_ACCESS_TOKEN ≠ "undefined".toList

/-- C7: publish precondition.  A publish attempt (a `createPin` call)
proceeds only if a board id is present — set globally or per-request — and
the merged access token is present and not a placeholder; otherwise the
request fails with a structured error before any platform call, and the
failure does not depend on the generated content (no generation result can
change it). -/
theorem C7_publish_precondition (req : PostPinReq) (seo : PinContent) (env0 : Env) :
    ((∃ b, postPin req seo env0 = .publish b) →
      boardPresent req env0 ∧ tokenUsable req env0) ∧
    (¬ (boardPresent req env0 ∧ tokenUsable req env0) →
      (∃ msg, postPin req seo env0 = .failure msg) ∧
      ∀ seo', postPin req seo' env0 = postPin req seo env0) := by
  constructor
  · rintro ⟨b, hb⟩
    unfold postPin at hb
    by_cases htok : (setupEnv req.config env0).PINTEREST_ACCESS_TOKEN = [] ∨
        (setupEnv req.config env0).PINTEREST_ACCESS_TOKEN = "undefined".toList
    · rw [if_pos htok] at hb
      exact absurd hb (by simp)
    · rw [if_neg htok] at hb
      have htok2 : tokenUsable req env0 := by
        constructor
        · intro h1; exact htok (Or.inl h1)
        · intro h1; exact htok (Or.inr h1)
      cases hcfg : req.config with
      | none =>
        rw [hcfg] at hb
        exact absurd hb (by simp)
      | some cfg =>
        rw [hcfg] at hb
        simp only [] at hb
        by_cases hboard : cfg.pinterest_board = []
        · rw [if_pos hboard] at hb
          exact absurd hb (by simp)
        · exact ⟨Or.inl ⟨cfg, hcfg, hboard⟩, htok2⟩
  · intro hnot
    by_cases htok : (setupEnv req.config env0).PINTEREST_ACCESS_TOKEN = [] ∨
        (setupEnv req.config env0).PINTEREST_ACCESS_TOKEN = "undefined".toList
    · have hfail : ∀ s, postPin req s env0 = .failure tokenMissingMsg := by
        intro s
        unfold postPin
        rw [if_pos htok]
      exact ⟨⟨_, hfail seo⟩, fun seo' => (hfail seo').trans (hfail seo).symm⟩
    · have htok2 : tokenUsable req env0 := by
        constructor
        · intro h1; exact htok (Or.inl h1)
        · intro h1; exact htok (Or.inr h1)
      have hP : ¬ boardPresent req env0 := fun hp => hnot ⟨hp, htok2⟩
      cases hcfg : req.config with
      | none =>
        have hfail : ∀ s, postPin req s env0 = .failure typeErrorMsg := by
          intro s
          unfold postPin
          rw [if_neg htok, hcfg]
        exact ⟨⟨_, hfail seo⟩, fun seo' => (hfail seo').trans (hfail seo).symm⟩
      | some cfg =>
        have hboard : cfg.pinterest_board = [] := by
          by_contra hbne
          exact hP (Or.inl ⟨cfg, hcfg, hbne⟩)
        have hfail : ∀ s, postPin req s env0 = .failure boardMissingMsg := by
          intro s
          unfold postPin
          rw [if_neg htok, hcfg]
          simp only []
          rw [if_pos hboard]
        exact ⟨⟨_, hfail seo⟩, fun seo' => (hfail seo').trans (hfail seo).symm⟩

theorem C7_publish_precondition_witness :
    ∃ msg, postPin ⟨none, none, none, .undef, none, none, none⟩ ⟨[], [], [], []⟩
      ⟨[], [], [], [], [], [], [], []⟩ = .failure msg :=
  ((C7_publish_precondition ⟨none, none, none, .undef, none, none, none⟩
    ⟨[], [], [], []⟩ ⟨[], [], [], [], [], [], [], []⟩).2
    (fun h => h.2.1 rfl)).1

/-! ## Claim C10 -/

theorem replaceAllChar_flatMap (t : Char) (rep : List Char) (l : List Char) :
    replaceAllChar t rep l = l.flatMap (fun c => if c = t then rep else [c]) := by
  induction l with
  | nil => rfl
  | cons c r ih => simp only [replaceAllChar, List.flatMap_cons, ih]

theorem xmlEscapeChain (c : Char) :
    ((if c = '&' then "&amp;".toList else [c]).flatMap (fun x =>
      (if x = '<' then "&lt;".toList else [x]).flatMap (fun y =>
        (if y = '>' then "&gt;".toList else [y]).flatMap (fun z =>
          (if z = '"' then "&quot;".toList else [z]).flatMap (fun w =>
            if w = '\'' then "&apos;".toList else [w]))))) = xmlEscapeChar c := by
  by_cases h1 : c = '&'
  · subst h1; rfl
  · by_cases h2 : c = '<'
    · subst h2; rfl
    · by_cases h3 : c = '>'
      · subst h3; rfl
      · by_cases h4 : c = '"'
        · subst h4; rfl
        · by_cases h5 : c = '\''
          · subst h5; rfl
          · rw [if_neg h1]
            simp only [List.flatMap_cons, List.flatMap_nil, List.append_nil]
            rw [if_neg h2]
            simp only [List.flatMap_cons, List.flatMap_nil, List.append_nil]
            rw [if_neg h3]
            simp only [List.flatMap_cons, List.flatMap_nil, List.append_nil]
            rw [if_neg h4]
            simp only [List.flatMap_cons, List.flatMap_nil, List.append_nil]
            rw [if_neg h5]
            unfold xmlEscapeChar
            rw [if_neg h1, if_neg h2, if_neg h3, if_neg h4, if_neg h5]

theorem escapeXml_flatMap (l : List Char) : escapeXml l = l.flatMap xmlEscapeChar := by
  unfold escapeXml
  rw [replaceAllChar_flatMap, replaceAllChar_flatMap, replaceAllChar_flatMap,
    replaceAllChar_flatMap, replaceAllChar_flatMap,
    List.flatMap_assoc, List.flatMap_assoc, List.flatMap_assoc, List.flatMap_assoc]
  refine congrArg _ (funext fun c => ?_)
  exact xmlEscapeChain c

theorem xmlEscapeChar_safe (c : Char) :
    ∀ x ∈ xmlEscapeChar c, x ≠ '<' ∧ x ≠ '>' ∧ x ≠ '"' ∧ x ≠ '\'' := by
  intro x hx
  unfold xmlEscapeChar at hx
  by_cases h1 : c = '&'
  · rw [if_pos h1] at hx
    exact (by decide : ∀ x ∈ "&amp;".toList, x ≠ '<' ∧ x ≠ '>' ∧ x ≠ '"' ∧ x ≠ '\'') x hx
  · rw [if_neg h1] at hx
    by_cases h2 : c = '<'
    · rw [if_pos h2] at hx
      exact (by decide : ∀ x ∈ "&lt;".toList, x ≠ '<' ∧ x ≠ '>' ∧ x ≠ '"' ∧ x ≠ '\'') x hx
    · rw [if_neg h2] at hx
      by_cases h3 : c = '>'
      · rw [if_pos h3] at hx
        exact (by decide : ∀ x ∈ "&gt;".toList, x ≠ '<' ∧ x ≠ '>' ∧ x ≠ '"' ∧ x ≠ '\'') x hx
      · rw [if_neg h3] at hx
        by_cases h4 : c = '"'
        · rw [if_pos h4] at hx
          exact (by decide :
            ∀ x ∈ "&quot;".toList, x ≠ '<' ∧ x ≠ '>' ∧ x ≠ '"' ∧ x ≠ '\'') x hx
        · rw [if_neg h4] at hx
          by_cases h5 : c = '\''
          · rw [if_pos h5] at hx
            exact (by decide :
              ∀ x ∈ "&apos;".toList, x ≠ '<' ∧ x ≠ '>' ∧ x ≠ '"' ∧ x ≠ '\'') x hx
          · rw [if_neg h5] at hx
            rw [List.mem_singleton.mp hx]
            exact ⟨h2, h3, h4, h5⟩

/-- C10 (implicit): SVG text injection safety.  Every text payload placed
inside the generated SVG banner — each wrapped title line and the site
caption — is the `escapeXml` image of its input, which replaces every
occurrence of the five XML special characters by their entities; hence no
payload contains `<`, `>`, `"` or `'`, so no input can close the `<text>`
element or inject markup. -/
theorem C10_svg_escaping (title url : List Char) :
    (svgTextContents title url =
      (wrapLines (jsToUpper title)).map (fun l => l.flatMap xmlEscapeChar) ++
        (if url = [] then [] else [url.flatMap xmlEscapeChar])) ∧
    (∀ e ∈ svgTextContents title url, ∀ c ∈ e,
      c ≠ '<' ∧ c ≠ '>' ∧ c ≠ '"' ∧ c ≠ '\'') := by
  have hfun : escapeXml = fun l => l.flatMap xmlEscapeChar := funext escapeXml_flatMap
  constructor
  · unfold svgTextContents
    rw [hfun]
  · intro e he c hc
    unfold svgTextContents at he
    rcases List.mem_append.mp he with h | h
    · rcases List.mem_map.mp h with ⟨l0, _, rfl⟩
      rw [escapeXml_flatMap] at hc
      rcases List.mem_flatMap.mp hc with ⟨a, _, ha⟩
      exact xmlEscapeChar_safe a c ha
    · by_cases hu : url = []
      · rw [if_pos hu] at h
        exact absurd h (List.not_mem_nil e)
      · rw [if_neg hu] at h
        rw [List.mem_singleton.mp h] at hc
        rw [escapeXml_flatMap] at hc
        rcases List.mem_flatMap.mp hc with ⟨a, _, ha⟩
        exact xmlEscapeChar_safe a c ha

theorem C10_svg_escaping_witness :
    '&' ≠ '<' ∧ '&' ≠ '>' ∧ '&' ≠ '"' ∧ '&' ≠ '\'' :=
  (C10_svg_escaping "<A>".toList "u".toList).2 "&lt;A&gt;".toList (by decide)
    '&' (by decide)

/-! ## Claim C8 -/

theorem dropWhile_head_false {p : Char → Bool} :
    ∀ (l : List Char) c t, l.dropWhile p = c :: t → p c = false := by
  intro l
  induction l with
  | nil => intro c t h; simp [List.dropWhile] at h
  | cons a r ih =>
    intro c t h
    rw [List.dropWhile_cons] at h
    by_cases hp : p a = true
    · rw [if_pos hp] at h
      exact ih c t h
    · rw [if_neg hp] at h
      cases h
      exact Bool.eq_false_iff.mpr hp

/-- C8 counterexample input: a model response whose embedded JSON carries a
101-character title and a `#`-prefixed hashtag. -/
def c8title : List Char := List.replicate 101 'a'

def c8content : List Char :=
  "\x7b\"title\":\"".toList ++ c8title ++ "\",\"hashtags\":[\"#x\"]\x7d".toList

/-- C8 counterexample: `generatePinContent` performs no shape validation —
on `c8content` it succeeds and returns a value whose `title` has 101 > 100
characters and whose hashtag list contains a string with a leading `#`. -/
theorem C8_pin_content_counterexample :
    generatePinContentModel c8content =
      .ok (.obj [("title".toList, .str c8title),
        ("hashtags".toList, .arr [.str ['#', 'x']])]) ∧
    100 < c8title.length := by
  constructor
  · rfl
  · decide

/-- C8 (amended): `generatePinContent` extracts the substring from the
first `\x7b` through the last `\x7d` (failing with the
`Invalid JSON response from OpenRouter` error when there is none), parses
it with `JSON.parse`, and returns the parsed value as-is — with no
validation of title or altText length and no stripping of `#` from
hashtags; an invalid JSON substring fails with the parser's own error. -/
theorem C8_generation_behavior (content : List Char) :
    (extractJsonSubstring content = none →
      generatePinContentModel content = .invalidResponse) ∧
    (∀ js, extractJsonSubstring content = some js →
      (js.head? = some '\x7b' ∧ js.getLast? = some '\x7d') ∧
      generatePinContentModel content =
        (match jsonParse js with
         | some v => .ok v
         | none => .parseFailure)) := by
  constructor
  · intro h
    unfold generatePinContentModel
    rw [h]
  · intro js h
    have hbody : generatePinContentModel content =
        (match jsonParse js with
         | some v => GenResult.ok v
         | none => GenResult.parseFailure) := by
      unfold generatePinContentModel
      rw [h]
    refine ⟨?_, hbody⟩
    unfold extractJsonSubstring at h
    by_cases h1 : content.dropWhile (fun c => c != '\x7b') = []
    · rw [if_pos h1] at h
      exact absurd h (by simp)
    · rw [if_neg h1] at h
      by_cases h2 : ((content.dropWhile (fun c => c != '\x7b')).reverse.dropWhile
          (fun c => c != '\x7d')).reverse = []
      · rw [if_pos h2] at h
        exact absurd h (by simp)
      · rw [if_neg h2] at h
        have hjs : js = ((content.dropWhile (fun c => c != '\x7b')).reverse.dropWhile
            (fun c => c != '\x7d')).reverse := by
          injection h with h'
          exact h'.symm
        subst hjs
        constructor
        · obtain ⟨c0, t0, hfb⟩ : ∃ c0 t0,
              content.dropWhile (fun c => c != '\x7b') = c0 :: t0 := by
            cases hf : content.dropWhile (fun c => c != '\x7b') with
            | nil => exact absurd hf h1
            | cons x xs => exact ⟨x, xs, rfl⟩
          have hc0 : c0 = '\x7b' :=
            bne_eq_false_iff_eq.mp (dropWhile_head_false content c0 t0 hfb)
          obtain ⟨c1, t1, hjs1⟩ : ∃ c1 t1,
              ((content.dropWhile (fun c => c != '\x7b')).reverse.dropWhile
                (fun c => c != '\x7d')).reverse = c1 :: t1 := by
            cases hf : ((content.dropWhile (fun c => c != '\x7b')).reverse.dropWhile
                (fun c => c != '\x7d')).reverse with
            | nil => exact absurd hf h2
            | cons x xs => exact ⟨x, xs, rfl⟩
          have hdecomp : content.dropWhile (fun c => c != '\x7b') =
              ((content.dropWhile (fun c => c != '\x7b')).reverse.dropWhile
                (fun c => c != '\x7d')).reverse ++
              ((content.dropWhile (fun c => c != '\x7b')).reverse.takeWhile
                (fun c => c != '\x7d')).reverse := by
            conv_lhs => rw [← List.reverse_reverse (content.dropWhile (fun c => c != '\x7b')),
              ← List.takeWhile_append_dropWhile (fun c => c != '\x7d')
                (content.dropWhile (fun c => c != '\x7b')).reverse]
            rw [List.reverse_append]
          rw [hjs1] at hdecomp
          rw [hfb] at hdecomp
          rw [List.cons_append] at hdecomp
          have : c0 = c1 := (List.cons.injEq c0 t0 c1 _).mp hdecomp |>.1
          rw [hjs1]
          rw [show c1 = '\x7b' from this ▸ hc0]
          rfl
        · rw [List.getLast?_reverse]
          obtain ⟨c1, t1, hd⟩ : ∃ c1 t1,
              (content.dropWhile (fun c => c != '\x7b')).reverse.dropWhile
                (fun c => c != '\x7d') = c1 :: t1 := by
            cases hf : (content.dropWhile (fun c => c != '\x7b')).reverse.dropWhile
                (fun c => c != '\x7d') with
            | nil => rw [hf] at h2; exact absurd rfl h2
            | cons x xs => exact ⟨x, xs, rfl⟩
          have hc1 : c1 = '\x7d' :=
            bne_eq_false_iff_eq.mp (dropWhile_head_false _ c1 t1 hd)
          rw [hd]
          rw [hc1]
          rfl

theorem C8_generation_behavior_witness :
    generatePinContentModel "no json here".toList = .invalidResponse :=
  (C8_generation_behavior "no json here".toList).1 rfl

/-! ## Claim C4 -/

theorem utf16Len_append (a b : List Char) :
    utf16Len (a ++ b) = utf16Len a + utf16Len b := by
  unfold utf16Len
  rw [List.map_append, List.sum_append]

theorem utf16Len_space_cons (w : List Char) : utf16Len (' ' :: w) = 1 + utf16Len w := by
  unfold utf16Len
  rw [List.map_cons, List.sum_cons]
  rfl

theorem utf16Len_nil : utf16Len [] = 0 := rfl

theorem specGreedyWrap_cons (cur w : List Char) (ws : List (List Char)) :
    specGreedyWrap cur (w :: ws) =
      if utf16Len cur + 1 + utf16Len w ≤ 25 then specGreedyWrap (cur ++ ' ' :: w) ws
      else cur :: specGreedyWrap w ws := rfl

theorem dropWhile_eq_self_of_head (p : Char → Bool) (c : Char) (t : List Char)
    (hc : p c = false) : (c :: t).dropWhile p = c :: t := by
  rw [List.dropWhile_cons, hc]
  rfl

theorem trim_of_edges (l : List Char) (c : Char) (t : List Char) (cr : Char)
    (tr : List Char) (h1 : l = c :: t) (hc : jsWhitespace c = false)
    (h2 : l.reverse = cr :: tr) (hcr : jsWhitespace cr = false) : jsTrim l = l := by
  unfold jsTrim
  rw [h1, dropWhile_eq_self_of_head _ _ _ hc, ← h1, h2,
    dropWhile_eq_self_of_head _ _ _ hcr, ← h2, List.reverse_reverse]

theorem trim_space_cons (w : List Char) (c : Char) (t : List Char) (cr : Char)
    (tr : List Char) (h1 : w = c :: t) (hc : jsWhitespace c = false)
    (h2 : w.reverse = cr :: tr) (hcr : jsWhitespace cr = false) :
    jsTrim (' ' :: w) = w := by
  unfold jsTrim
  rw [show (' ' :: w).dropWhile jsWhitespace = w.dropWhile jsWhitespace from by
    rw [List.dropWhile_cons]; rfl]
  rw [h1, dropWhile_eq_self_of_head _ _ _ hc, ← h1, h2,
    dropWhile_eq_self_of_head _ _ _ hcr, ← h2, List.reverse_reverse]

theorem word_edges (w : List Char) (hne : w ≠ [])
    (hws : ∀ c ∈ w, jsWhitespace c = false) :
    (∃ c t, w = c :: t ∧ jsWhitespace c = false) ∧
    (∃ c t, w.reverse = c :: t ∧ jsWhitespace c = false) := by
  constructor
  · cases w with
    | nil => exact absurd rfl hne
    | cons c t => exact ⟨c, t, rfl, hws c (List.mem_cons_self c t)⟩
  · cases hrev : w.reverse with
    | nil => exact absurd (List.reverse_eq_nil_iff.mp hrev) hne
    | cons c t =>
      refine ⟨c, t, rfl, hws c ?_⟩
      rw [← List.mem_reverse, hrev]
      exact List.mem_cons_self c t

theorem edge_append_left (cur w : List Char) (c : Char) (t : List Char)
    (h : cur = c :: t) : cur ++ ' ' :: w = c :: (t ++ ' ' :: w) := by
  rw [h, List.cons_append]

theorem edge_append_rev (cur w : List Char) (c : Char) (t : List Char)
    (h : w.reverse = c :: t) :
    (cur ++ ' ' :: w).reverse = c :: (t ++ ' ' :: cur.reverse) := by
  rw [List.reverse_append, List.reverse_cons, h]
  simp [List.append_assoc]

theorem splitOnChar_no_sep (sep : Char) (u : List Char) (h : ∀ c ∈ u, c ≠ sep) :
    splitOnChar sep u = [u] := by
  induction u with
  | nil => rfl
  | cons c r ih =>
    have hstep : splitOnChar sep (c :: r) =
        (match splitOnChar sep r with
         | w :: ws => if c = sep then [] :: w :: ws else (c :: w) :: ws
         | [] => [[c]]) := rfl
    rw [hstep, ih (fun x hx => h x (List.mem_cons_of_mem c hx))]
    show (if c = sep then [[], r] else [c :: r]) = [c :: r]
    rw [if_neg (h c (List.mem_cons_self c r))]

theorem wrap_loop (ws : List (List Char)) :
    ∀ (lines : List (List Char)) (cur : List Char),
      (∃ c t, cur = c :: t ∧ jsWhitespace c = false) →
      (∃ c t, cur.reverse = c :: t ∧ jsWhitespace c = false) →
      (∀ w ∈ ws, w ≠ [] ∧ ∀ c ∈ w, jsWhitespace c = false) →
      (if (ws.foldl wrapStep (lines, cur)).2 = [] then (ws.foldl wrapStep (lines, cur)).1
       else (ws.foldl wrapStep (lines, cur)).1 ++ [(ws.foldl wrapStep (lines, cur)).2]) =
        lines ++ specGreedyWrap cur ws := by
  induction ws with
  | nil =>
    intro lines cur hh _ _
    obtain ⟨c, t, hcur, _⟩ := hh
    rw [List.foldl_nil]
    show (if cur = [] then lines else lines ++ [cur]) = lines ++ specGreedyWrap cur []
    rw [if_neg (by rw [hcur]; exact List.cons_ne_nil c t)]
    rfl
  | cons w ws ih =>
    intro lines cur hh hr hws
    obtain ⟨hwne, hwc⟩ := hws w (List.mem_cons_self w ws)
    obtain ⟨cw, tw, hwcons, hcw⟩ := (word_edges w hwne hwc).1
    obtain ⟨cwr, twr, hwrev, hcwr⟩ := (word_edges w hwne hwc).2
    obtain ⟨c, t, hcur, hc⟩ := hh
    obtain ⟨cr, tr, hcurrev, hcr⟩ := hr
    have htrim : jsTrim (cur ++ ' ' :: w) = cur ++ ' ' :: w :=
      trim_of_edges _ c (t ++ ' ' :: w) cwr (twr ++ ' ' :: cur.reverse)
        (edge_append_left cur w c t hcur) hc
        (edge_append_rev cur w cwr twr hwrev) hcwr
    have hlen : utf16Len (cur ++ ' ' :: w) = utf16Len cur + 1 + utf16Len w := by
      rw [utf16Len_append, utf16Len_space_cons]
      omega
    have hcurne : ¬ cur = [] := by rw [hcur]; exact List.cons_ne_nil c t
    have hstep : wrapStep (lines, cur) w =
        (if utf16Len cur + 1 + utf16Len w ≤ 25 then (lines, cur ++ ' ' :: w)
         else (lines ++ [cur], w)) := by
      unfold wrapStep
      show (if utf16Len (jsTrim (cur ++ ' ' :: w)) ≤ 25
        then (lines, jsTrim (cur ++ ' ' :: w))
        else (if cur = [] then lines else lines ++ [cur], w)) = _
      rw [htrim, hlen, if_neg hcurne]
    rw [List.foldl_cons, hstep, specGreedyWrap_cons]
    by_cases hle : utf16Len cur + 1 + utf16Len w ≤ 25
    · rw [if_pos hle, if_pos hle]
      rw [ih lines (cur ++ ' ' :: w)
        ⟨c, t ++ ' ' :: w, edge_append_left cur w c t hcur, hc⟩
        ⟨cwr, twr ++ ' ' :: cur.reverse, edge_append_rev cur w cwr twr hwrev, hcwr⟩
        (fun x hx => hws x (List.mem_cons_of_mem w hx))]
    · rw [if_neg hle, if_neg hle]
      rw [ih (lines ++ [cur]) w ⟨cw, tw, hwcons, hcw⟩ ⟨cwr, twr, hwrev, hcwr⟩
        (fun x hx => hws x (List.mem_cons_of_mem w hx))]
      simp [List.append_assoc]

/-- C4: title wrapping.  An upper-cased title of at most 25 characters stays
on one line; a single word longer than 25 characters remains on one
(overflowing) line; and a multi-word title longer than 25 characters —
space-separated non-empty words free of whitespace — is wrapped exactly as
the classic greedy word-atomic line wrap `specGreedyWrap`: whole words are
appended while the running line stays within 25 characters and flushed to a
new line otherwise, never splitting a word. -/
theorem C4_title_wrapping :
    (∀ u, utf16Len u ≤ 25 → wrapLines u = [u]) ∧
    (∀ u, 25 < utf16Len u → (∀ c ∈ u, jsWhitespace c = false) → wrapLines u = [u]) ∧
    (∀ u w ws, 25 < utf16Len u → splitOnChar ' ' u = w :: ws →
      (∀ x ∈ w :: ws, x ≠ [] ∧ ∀ c ∈ x, jsWhitespace c = false) →
      wrapLines u = specGreedyWrap w ws) := by
  have main : ∀ u w ws, 25 < utf16Len u → splitOnChar ' ' u = w :: ws →
      (∀ x ∈ w :: ws, x ≠ [] ∧ ∀ c ∈ x, jsWhitespace c = false) →
      wrapLines u = specGreedyWrap w ws := by
    intro u w ws h25 hsplit hclean
    obtain ⟨hwne, hwc⟩ := hclean w (List.mem_cons_self w ws)
    obtain ⟨cw, tw, hwcons, hcw⟩ := (word_edges w hwne hwc).1
    obtain ⟨cwr, twr, hwrev, hcwr⟩ := (word_edges w hwne hwc).2
    have hfirst : wrapStep ([], []) w = ([], w) := by
      have htr : jsTrim ([] ++ ' ' :: w) = w := by
        rw [List.nil_append]
        exact trim_space_cons w cw tw cwr twr hwcons hcw hwrev hcwr
      unfold wrapStep
      show (if utf16Len (jsTrim ([] ++ ' ' :: w)) ≤ 25
        then (([] : List (List Char)), jsTrim ([] ++ ' ' :: w))
        else (if ([] : List Char) = [] then ([] : List (List Char))
          else [] ++ [([] : List Char)], w)) = (([] : List (List Char)), w)
      rw [htr]
      by_cases hle : utf16Len w ≤ 25
      · rw [if_pos hle]
      · rw [if_neg hle]
        rfl
    unfold wrapLines
    rw [if_pos h25, hsplit, List.foldl_cons, hfirst]
    rw [wrap_loop ws [] w ⟨cw, tw, hwcons, hcw⟩ ⟨cwr, twr, hwrev, hcwr⟩
      (fun x hx => hclean x (List.mem_cons_of_mem w hx))]
    rw [List.nil_append]
  refine ⟨?_, ?_, main⟩
  · intro u h
    unfold wrapLines
    rw [if_neg (by omega)]
  · intro u h25 hnws
    have hne : u ≠ [] := by
      intro h
      rw [h, utf16Len_nil] at h25
      omega
    have hsplit : splitOnChar ' ' u = [u] :=
      splitOnChar_no_sep ' ' u (fun c hc heq => by
        have := hnws c hc
        rw [heq] at this
        exact absurd this (by decide))
    exact (main u u [] h25 hsplit (by
      intro x hx
      rw [List.mem_singleton.mp hx]
      exact ⟨hne, hnws⟩)).trans rfl

theorem C4_title_wrapping_witness :
    wrapLines "HELLO WORLD".toList = ["HELLO WORLD".toList] ∧
    wrapLines "SUPERCALIFRAGILISTICEXPIALIDOCIOUS".toList =
      ["SUPERCALIFRAGILISTICEXPIALIDOCIOUS".toList] ∧
    wrapLines "CHOCOLATE CAKE RECIPE FOR TWO".toList =
      ["CHOCOLATE CAKE RECIPE FOR".toList, "TWO".toList] :=
  ⟨C4_title_wrapping.1 "HELLO WORLD".toList (by decide),
   C4_title_wrapping.2.1 "SUPERCALIFRAGILISTICEXPIALIDOCIOUS".toList
     (by decide) (by decide),
   (C4_title_wrapping.2.2 "CHOCOLATE CAKE RECIPE FOR TWO".toList
     "CHOCOLATE".toList ["CAKE".toList, "RECIPE".toList, "FOR".toList, "TWO".toList]
     (by decide) (by decide) (by decide)).trans (by decide)⟩

end PinCover
